import Mathlib

/-!
Verification development for the `lox` repository: a tree-walking Lox
interpreter (`jlox`, Rust crate `src/jlox`) and a bytecode compiler plus
stack virtual machine (`clox`, Rust crate `src/clox`).

The Rust sources are shallowly embedded below.  Machine doubles (`f64`)
are modelled by `F64`: an exact rational payload plus a NaN point, which
is enough to state every property considered here (none of them exercises
IEEE infinities or rounding; the only division appearing in any settled
property is on the error path, never on the value path).  Heap cells
(`Rc<RefCell<Value>>`) are modelled by indices into an explicit store.
Rust operations that can panic (out-of-bounds indexing, integer
underflow) are modelled as `Option`-returning functions where `none`
stands for the panic.
-/

/-- Model of Rust `f64` for this development: an exact rational value
— kept as an unreduced fraction (integer numerator, positive
denominator) so that every arithmetic operation below is plain integer
arithmetic, fully computable inside the kernel — or NaN.  Two fractions
denote the same real iff cross-multiplication agrees, which is what
`beq`/`lt`/`gt` test.  This fragment suffices for every property
settled here (none exercises IEEE infinities or rounding; the only
division appearing in any settled property is on an error path, never
on a value path). -/
inductive F64 where
  | num (n : Int) (d : Nat)
  | nan
deriving DecidableEq, Repr

namespace F64

/-- The double with integer value `n`. -/
def ofInt (n : Int) : F64 := num n 1

/-- IEEE `==` on the modelled fragment of `f64` (Rust
`PartialEq for f64`): NaN equals nothing, finite values compare as
reals (by cross-multiplication). -/
def beq : F64 → F64 → Bool
  | num a b, num c d => a * (d : Int) == c * (b : Int)
  | _, _ => false

/-- `f64` addition on the modelled fragment (NaN propagates). -/
def add : F64 → F64 → F64
  | num a b, num c d => num (a * (d : Int) + c * (b : Int)) (b * d)
  | _, _ => nan

/-- `f64` subtraction on the modelled fragment (NaN propagates). -/
def sub : F64 → F64 → F64
  | num a b, num c d => num (a * (d : Int) - c * (b : Int)) (b * d)
  | _, _ => nan

/-- `f64` multiplication on the modelled fragment (NaN propagates). -/
def mul : F64 → F64 → F64
  | num a b, num c d => num (a * c) (b * d)
  | _, _ => nan

/-- `f64` division on the modelled fragment.  Division by zero produces
an IEEE infinity, which is outside the modelled fragment; no settled
property evaluates a division, so that case is mapped to `nan` here. -/
def div : F64 → F64 → F64
  | num a b, num c d =>
    if c = 0 then nan
    else num (a * (d : Int) * (if c < 0 then -1 else 1)) (b * c.natAbs)
  | _, _ => nan

/-- `f64` negation on the modelled fragment. -/
def neg : F64 → F64
  | num a b => num (-a) b
  | nan => nan

/-- IEEE `<` on the modelled fragment (false whenever NaN is involved). -/
def lt : F64 → F64 → Bool
  | num a b, num c d => a * (d : Int) < c * (b : Int)
  | _, _ => false

/-- IEEE `>` on the modelled fragment (false whenever NaN is involved). -/
def gt : F64 → F64 → Bool
  | num a b, num c d => a * (d : Int) > c * (b : Int)
  | _, _ => false

/-- Rust `Display` for `f64`, restricted to the values printed by the
modelled programs: an integral double prints without a fractional
part. -/
def display : F64 → String
  | num a d =>
    if a % (d : Int) = 0 then toString (a / (d : Int))
    else toString a ++ "/" ++ toString d
  | nan => "NaN"

end F64

/-! ## clox: runtime values (`src/clox/src/value.rs`) -/

namespace Clox

/-- `clox` runtime value (`enum Value` in `src/clox/src/value.rs`):
booleans, nil (the `Default`), numbers. -/
inductive Value where
  | bool (b : Bool)
  | nil
  | number (x : F64)
deriving DecidableEq, Repr

namespace Value

/-- `Value::default()` — the `#[default]` variant is `Nil`. -/
def default : Value := nil

/-- `Value::boolean`. -/
def boolean (v : Bool) : Value := bool v

/-- `Value::number`. -/
def numberMk (v : F64) : Value := number v

/-- `Value::is_nil`. -/
def is_nil : Value → Bool
  | nil => true
  | _ => false

/-- `Value::is_bool`. -/
def is_bool : Value → Bool
  | bool _ => true
  | _ => false

/-- `Value::is_number`. -/
def is_number : Value → Bool
  | number _ => true
  | _ => false

/-- `Value::as_number` (the payload when the value is a number). -/
def as_number : Value → Option F64
  | number x => some x
  | _ => none

/-- `Value::as_bool`. -/
def as_bool : Value → Option Bool
  | bool b => some b
  | _ => none

/-- `Value::is_falsey`: nil or `false`; everything else is truthy. -/
def is_falsey (v : Value) : Bool :=
  v.is_nil || (v.is_bool && !(v.as_bool.getD true))

/-- `impl PartialEq for Value` in `src/clox/src/value.rs`: same-kind
values compare by payload (numbers with IEEE `==`), cross-kind
comparison is false. -/
def eq : Value → Value → Bool
  | bool a, bool b => a == b
  | nil, nil => true
  | number a, number b => F64.beq a b
  | _, _ => false

end Value

/-! ## clox: chunks (`src/clox/src/chunk.rs`) -/

/-- `enum OpCode`, `#[repr(u8)]`, discriminants in declaration order. -/
inductive OpCode where
  | constant
  | nilOp
  | trueOp
  | falseOp
  | equal
  | greater
  | less
  | add
  | subtract
  | multiply
  | divide
  | notOp
  | negate
  | ret
deriving DecidableEq, Repr

namespace OpCode

/-- `impl From<OpCode> for u8` — the `#[repr(u8)]` discriminant. -/
def toByte : OpCode → Nat
  | constant => 0
  | nilOp => 1
  | trueOp => 2
  | falseOp => 3
  | equal => 4
  | greater => 5
  | less => 6
  | add => 7
  | subtract => 8
  | multiply => 9
  | divide => 10
  | notOp => 11
  | negate => 12
  | ret => 13

/-- `impl TryInto<OpCode> for u8` — decode a byte back to an opcode. -/
def tryFrom (b : Nat) : Option OpCode :=
  if b = 0 then some constant
  else if b = 1 then some nilOp
  else if b = 2 then some trueOp
  else if b = 3 then some falseOp
  else if b = 4 then some equal
  else if b = 5 then some greater
  else if b = 6 then some less
  else if b = 7 then some add
  else if b = 8 then some subtract
  else if b = 9 then some multiply
  else if b = 10 then some divide
  else if b = 11 then some notOp
  else if b = 12 then some negate
  else if b = 13 then some ret
  else none

end OpCode

/-- `struct Chunk`: bytecode bytes, per-byte source lines, constant pool
(`ValueArray` is a plain vector of values).  Bytes are `Nat`s kept below
256 by the writers. -/
structure Chunk where
  code : List Nat
  constants : List Value
  lines : List Nat
deriving DecidableEq, Repr

namespace Chunk

/-- `Chunk::new`. -/
def new : Chunk := { code := [], constants := [], lines := [] }

/-- `Chunk::write_chunk(byte, line)`: push the byte (a `u8`, hence the
`% 256`) onto `code` and the line onto `lines`. -/
def write_chunk (c : Chunk) (byte : Nat) (line : Nat) : Chunk :=
  { c with code := c.code ++ [byte % 256], lines := c.lines ++ [line] }

/-- `Chunk::add_constant(value)`: push the value and return
`self.constants.len() as u8 - 1`.  The cast and subtraction are wrapping
`u8` arithmetic, hence the explicit `% 256`; there is no bound check. -/
def add_constant (c : Chunk) (value : Value) : Chunk × Nat :=
  let c' := { c with constants := c.constants ++ [value] }
  (c', (c'.constants.length % 256 + 255) % 256)

end Chunk

/-- One mutation of a chunk: either `write_chunk` or `add_constant`
(the only two operations `Chunk` exposes). -/
inductive ChunkOp where
  | write (byte : Nat) (line : Nat)
  | addConst (v : Value)
deriving Repr

/-- Apply one `ChunkOp` to a chunk. -/
def ChunkOp.apply (c : Chunk) : ChunkOp → Chunk
  | write byte line => c.write_chunk byte line
  | addConst v => (c.add_constant v).1

/-- Apply a sequence of chunk operations starting from a given chunk. -/
def ChunkOp.applyAll (c : Chunk) : List ChunkOp → Chunk
  | [] => c
  | op :: ops => applyAll (op.apply c) ops

/-- Iterate `add_constant` with a fixed value `n` times, returning the
final chunk and the index returned by the last call (`0` when `n = 0`). -/
def addConstantTimes (c : Chunk) (v : Value) : Nat → Chunk × Nat
  | 0 => (c, 0)
  | n + 1 =>
    let r := c.add_constant v
    if n = 0 then r else addConstantTimes r.1 v n

end Clox

/-! ## clox: the stack virtual machine (`src/clox/src/vm.rs`) -/

namespace Clox

/-- `STACK_MAX`: the fixed capacity of the VM's evaluation stack. -/
def STACK_MAX : Nat := 256

/-- State of `struct Vm` while `run` executes.  The evaluation stack is
the live prefix `stack[0..stack_top]` of the 256-element array, modelled
as a list with the top of the stack at the head (so `stack_top` is the
list length).  `stderrLog` collects, in order, the expansion of every
`eprintln!` format string (each entry is one call; `eprintln!` itself
appends a final newline not included in the entry), and `printed`
collects `println!` output. -/
structure Vm where
  chunk : Chunk
  ip : Nat
  stack : List Value
  stderrLog : List String
  printed : List String
deriving Repr

/-- Result of `Vm::run`: `Ok(())` or `Err(InterpretError::RuntimeError)`.
A Rust panic (array index out of bounds, `usize` underflow, or the
`todo!()` arm for an undecodable byte) is modelled as `none` at the
`Option` layer wrapping this type. -/
inductive RunResult where
  | ok
  | runtimeError
deriving DecidableEq, Repr

namespace Vm

/-- Initial VM state for running a given chunk (`Vm::new` followed by
`interpret`'s `self.chunk = Some(chunk); self.ip = 0`). -/
def start (c : Chunk) : Vm :=
  { chunk := c, ip := 0, stack := [], stderrLog := [], printed := [] }

/-- `Vm::reset_stack`: `stack_top = 0`. -/
def reset_stack (vm : Vm) : Vm := { vm with stack := [] }

/-- `Vm::runtime_error(msg)`: print the message, then
`[line {line} in script\n` (sic — the source's format string lacks the
closing bracket), where `line = lines[ip - 1]`, then reset the stack.
`none` models the panic when `ip = 0` or the line table is too short. -/
def runtime_error (vm : Vm) (msg : String) : Option Vm :=
  if vm.ip = 0 then none
  else
    match vm.chunk.lines.get? (vm.ip - 1) with
    | none => none
    | some line =>
      some { vm with
              stderrLog := vm.stderrLog ++
                [msg, "[line " ++ toString line ++ " in script\n"],
              stack := [] }

/-- `Vm::push`: write `stack[stack_top]` and increment `stack_top`.
Writing at `stack_top = STACK_MAX` indexes outside the array: `none`
models that panic.  There is no overflow check in the source. -/
def push (vm : Vm) (value : Value) : Option Vm :=
  if vm.stack.length < STACK_MAX then
    some { vm with stack := value :: vm.stack }
  else
    none

/-- `Vm::pop`: decrement `stack_top` and take the value.  On an empty
stack the `usize` decrement underflows: `none` models that panic. -/
def pop (vm : Vm) : Option (Value × Vm) :=
  match vm.stack with
  | [] => none
  | v :: rest => some (v, { vm with stack := rest })

/-- `Vm::peek(distance)`: read `stack[stack_top - 1 - distance]`.
`none` models the panic when the stack is too shallow. -/
def peek (vm : Vm) (distance : Nat) : Option Value :=
  vm.stack.get? distance

/-- `Vm::read_byte`: fetch `code[ip]` and advance `ip`.  `none` models
the out-of-bounds panic. -/
def read_byte (vm : Vm) : Option (Nat × Vm) :=
  match vm.chunk.code.get? vm.ip with
  | none => none
  | some b => some (b, { vm with ip := vm.ip + 1 })

/-- `Vm::read_constant`: read a byte and index the constant pool with
it.  `none` models the out-of-bounds panic. -/
def read_constant (vm : Vm) : Option (Value × Vm) :=
  match vm.read_byte with
  | none => none
  | some (b, vm') =>
    match vm'.chunk.constants.get? b with
    | none => none
    | some v => some (v, vm')

/-- The `binary_op!` macro body: if either of the top two stack values
is not a number, report the runtime error and return
`Err(RuntimeError)`; otherwise pop `b` then `a` and push `f a b`. -/
def binary_op (vm : Vm) (f : F64 → F64 → Value) :
    Option (Sum Vm Vm) :=
  match vm.peek 0 with
  | none => none
  | some v0 =>
    match vm.peek 1 with
    | none => none
    | some v1 =>
      if !v0.is_number || !v1.is_number then
        match vm.runtime_error "Operands must be numbers." with
        | none => none
        | some vm' => some (Sum.inr vm')
      else
        match vm.pop with
        | none => none
        | some (b, vm1) =>
          match vm1.pop with
          | none => none
          | some (a, vm2) =>
            match vm2.push (f (a.as_number.getD F64.nan)
                              (b.as_number.getD F64.nan)) with
            | none => none
            | some vm3 => some (Sum.inl vm3)

/-- Rust `Display for Value` (`printValue`). -/
def printValue : Value → String
  | Value.bool b => if b then "true" else "false"
  | Value.nil => "nil"
  | Value.number n => n.display

/-- One iteration of the dispatch loop in `Vm::run`.  `Sum.inl` means
continue looping, `Sum.inr` means `run` returned with the given result;
`none` is a panic. -/
def step (vm : Vm) : Option (Sum Vm (RunResult × Vm)) :=
  match vm.read_byte with
  | none => none
  | some (instruction, vm) =>
    match OpCode.tryFrom instruction with
    | none => none
    | some OpCode.constant =>
      match vm.read_constant with
      | none => none
      | some (c, vm) =>
        match vm.push c with
        | none => none
        | some vm => some (Sum.inl vm)
    | some OpCode.nilOp =>
      match vm.push Value.nil with
      | none => none
      | some vm => some (Sum.inl vm)
    | some OpCode.trueOp =>
      match vm.push (Value.boolean true) with
      | none => none
      | some vm => some (Sum.inl vm)
    | some OpCode.falseOp =>
      match vm.push (Value.boolean false) with
      | none => none
      | some vm => some (Sum.inl vm)
    | some OpCode.equal =>
      match vm.pop with
      | none => none
      | some (b, vm) =>
        match vm.pop with
        | none => none
        | some (a, vm) =>
          match vm.push (Value.boolean (a.eq b)) with
          | none => none
          | some vm => some (Sum.inl vm)
    | some OpCode.greater =>
      match vm.binary_op (fun a b => Value.boolean (a.gt b)) with
      | none => none
      | some (Sum.inl vm) => some (Sum.inl vm)
      | some (Sum.inr vm) => some (Sum.inr (RunResult.runtimeError, vm))
    | some OpCode.less =>
      match vm.binary_op (fun a b => Value.boolean (a.lt b)) with
      | none => none
      | some (Sum.inl vm) => some (Sum.inl vm)
      | some (Sum.inr vm) => some (Sum.inr (RunResult.runtimeError, vm))
    | some OpCode.add =>
      match vm.binary_op (fun a b => Value.number (a.add b)) with
      | none => none
      | some (Sum.inl vm) => some (Sum.inl vm)
      | some (Sum.inr vm) => some (Sum.inr (RunResult.runtimeError, vm))
    | some OpCode.subtract =>
      match vm.binary_op (fun a b => Value.number (a.sub b)) with
      | none => none
      | some (Sum.inl vm) => some (Sum.inl vm)
      | some (Sum.inr vm) => some (Sum.inr (RunResult.runtimeError, vm))
    | some OpCode.multiply =>
      match vm.binary_op (fun a b => Value.number (a.mul b)) with
      | none => none
      | some (Sum.inl vm) => some (Sum.inl vm)
      | some (Sum.inr vm) => some (Sum.inr (RunResult.runtimeError, vm))
    | some OpCode.divide =>
      match vm.binary_op (fun a b => Value.number (a.div b)) with
      | none => none
      | some (Sum.inl vm) => some (Sum.inl vm)
      | some (Sum.inr vm) => some (Sum.inr (RunResult.runtimeError, vm))
    | some OpCode.notOp =>
      match vm.pop with
      | none => none
      | some (tmp, vm) =>
        match vm.push (Value.boolean tmp.is_falsey) with
        | none => none
        | some vm => some (Sum.inl vm)
    | some OpCode.negate =>
      match vm.peek 0 with
      | none => none
      | some v0 =>
        if !v0.is_number then
          match vm.runtime_error "Operand must be a number" with
          | none => none
          | some vm => some (Sum.inr (RunResult.runtimeError, vm))
        else
          match vm.pop with
          | none => none
          | some (tmp, vm) =>
            match vm.push (Value.number ((tmp.as_number.getD F64.nan).neg))
            with
            | none => none
            | some vm => some (Sum.inl vm)
    | some OpCode.ret =>
      match vm.pop with
      | none => none
      | some (v, vm) =>
        some (Sum.inr (RunResult.ok,
          { vm with printed := vm.printed ++ [printValue v] }))

/-- `Vm::run`: the dispatch loop, with fuel to make the recursion
manifestly terminating.  `none` is a panic or fuel exhaustion (the
settled properties always supply ample fuel). -/
def run : Nat → Vm → Option (RunResult × Vm)
  | 0, _ => none
  | fuel + 1, vm =>
    match vm.step with
    | none => none
    | some (Sum.inl vm') => run fuel vm'
    | some (Sum.inr r) => some r

end Vm

end Clox

/-! ## clox: the scanner (`src/clox/src/scanner.rs`,
`src/clox/src/scanner/token_type.rs`) -/

namespace Clox

/-- `enum TokenType` of the clox scanner (`Error` is the `Default`). -/
inductive TokenType where
  | leftParen | rightParen | leftBrace | rightBrace
  | comma | dot | minus | plus | semicolon | slash | star
  | bang | bangEqual | equal | equalEqual
  | greater | greaterEqual | less | lessEqual
  | identifier | string | number
  | andKw | classKw | elseKw | falseKw | forKw | funKw | ifKw | nilKw
  | orKw | printKw | returnKw | superKw | thisKw | trueKw | varKw | whileKw
  | error
  | eof
deriving DecidableEq, Repr

namespace TokenType

/-- `TokenType::is_eof`. -/
def is_eof : TokenType → Bool
  | eof => true
  | _ => false

/-- `TokenType::is_error`. -/
def is_error : TokenType → Bool
  | error => true
  | _ => false

end TokenType

/-- `struct Token` of the clox scanner: kind, start offset, length,
line. -/
structure Token where
  typ : TokenType
  start : Nat
  length : Nat
  line : Nat
deriving DecidableEq, Repr

/-- `struct Scanner` of clox: the source as a char vector plus `start`,
`current` and `line` cursors. -/
structure Scanner where
  source : List Char
  start : Nat
  current : Nat
  line : Nat
deriving DecidableEq, Repr

/-- `is_alpha` (clox): ASCII letters and underscore. -/
def is_alpha (c : Char) : Bool :=
  c.isLower || c.isUpper || c = '_'

namespace Scanner

/-- `Scanner::new`. -/
def new (source : List Char) : Scanner :=
  { source := source, start := 0, current := 0, line := 1 }

/-- `Scanner::at_end`: `current >= source.len()`. -/
def at_end (s : Scanner) : Bool :=
  s.source.length ≤ s.current

/-- `Scanner::advance`: step `current` and return the char just passed.
`none` models the index panic when `current` is already past the end. -/
def advance (s : Scanner) : Option (Char × Scanner) :=
  match s.source.get? s.current with
  | none => none
  | some c => some (c, { s with current := s.current + 1 })

/-- `Scanner::matches(expected)` (named `matchesChar` here; `matches` is reserved in Lean). -/
def matchesChar (s : Scanner) (expected : Char) : Bool × Scanner :=
  if s.at_end then (false, s)
  else if s.source.getD s.current ' ' ≠ expected then (false, s)
  else (true, { s with current := s.current + 1 })

/-- `Scanner::peek`: the current char, `'\0'` at the end. -/
def peek (s : Scanner) : Char :=
  if s.at_end then Char.ofNat 0 else s.source.getD s.current ' '

/-- `Scanner::peek_next`: `'\0'` when `at_end`, otherwise
`source[current + 1]` — which is **out of bounds** whenever `current`
sits on the last character.  `none` models that panic. -/
def peek_next (s : Scanner) : Option Char :=
  if s.at_end then some (Char.ofNat 0)
  else s.source.get? (s.current + 1)

/-- `Scanner::make_token`. -/
def make_token (s : Scanner) (typ : TokenType) : Token :=
  { typ := typ, start := s.start, length := s.current - s.start,
    line := s.line }

/-- `Scanner::error_token`. -/
def error_token (s : Scanner) (arg : String) : Token :=
  { typ := TokenType.error, start := 0, length := arg.length,
    line := s.line }

/-- The `while self.peek() != '\n' && !self.at_end()` comment-skipping
loop inside `skip_whitespace`, with fuel. -/
def skip_comment : Nat → Scanner → Option Scanner
  | 0, _ => none
  | fuel + 1, s =>
    if s.peek ≠ '\n' && !s.at_end then
      match s.advance with
      | none => none
      | some (_, s') => skip_comment fuel s'
    else
      some s

/-- The loop body of `Scanner::skip_whitespace`, with fuel.  The `'/'`
arm calls `peek_next`, which can panic. -/
def skip_whitespace : Nat → Scanner → Option Scanner
  | 0, _ => none
  | fuel + 1, s =>
    let c := s.peek
    if c = ' ' || c = '\r' || c = '\t' then
      match s.advance with
      | none => none
      | some (_, s') => skip_whitespace fuel s'
    else if c = '\n' then
      match Scanner.advance { s with line := s.line + 1 } with
      | none => none
      | some (_, s') => skip_whitespace fuel s'
    else if c = '/' then
      match s.peek_next with
      | none => none
      | some c' =>
        if c' = '/' then
          match skip_comment (s.source.length + 1) s with
          | none => none
          | some s' => skip_whitespace fuel s'
        else
          some s
    else
      some s

/-- `Scanner::check_keyword(start, length, rest, typ)`: as written in
the source, the *entire* lexeme `source[self.start..self.current]` is
compared against `rest` (not just its tail as in C clox), so the result
is `Identifier` whenever the lexeme is longer than `rest`. -/
def check_keyword (s : Scanner) (start length : Nat) (rest : List Char)
    (typ : TokenType) : TokenType :=
  if s.current - s.start = start + length then
    let lexeme := (s.source.drop s.start).take (s.current - s.start)
    if lexeme = rest then typ else TokenType.identifier
  else
    TokenType.identifier

/-- `Scanner::identifier_type`: dispatch on the first character of the
lexeme.  `none` models the index panic (unreachable from `identifier`,
whose caller has already consumed one in-bounds character). -/
def identifier_type (s : Scanner) : Option TokenType :=
  match s.source.get? s.start with
  | none => none
  | some c =>
    if c = 'a' then some (s.check_keyword 1 2 ['n', 'd'] TokenType.andKw)
    else if c = 'c' then
      some (s.check_keyword 1 4 ['l', 'a', 's', 's'] TokenType.classKw)
    else if c = 'e' then
      some (s.check_keyword 1 3 ['l', 's', 'e'] TokenType.elseKw)
    else if c = 'f' then
      if s.start + 1 < s.current then
        match s.source.get? (s.start + 1) with
        | none => none
        | some c1 =>
          if c1 = 'a' then
            some (s.check_keyword 2 3 ['l', 's', 'e'] TokenType.falseKw)
          else if c1 = 'o' then
            some (s.check_keyword 2 1 ['r'] TokenType.forKw)
          else if c1 = 'u' then
            some (s.check_keyword 2 1 ['n'] TokenType.funKw)
          else some TokenType.identifier
      else some TokenType.identifier
    else if c = 'i' then some (s.check_keyword 1 1 ['f'] TokenType.ifKw)
    else if c = 'n' then
      some (s.check_keyword 1 2 ['i', 'l'] TokenType.nilKw)
    else if c = 'o' then some (s.check_keyword 1 1 ['r'] TokenType.orKw)
    else if c = 'p' then
      some (s.check_keyword 1 4 ['r', 'i', 'n', 't'] TokenType.printKw)
    else if c = 'r' then
      some (s.check_keyword 1 5 ['e', 't', 'u', 'r', 'n'] TokenType.returnKw)
    else if c = 's' then
      some (s.check_keyword 1 4 ['u', 'p', 'e', 'r'] TokenType.superKw)
    else if c = 't' then
      if s.start + 1 < s.current then
        match s.source.get? (s.start + 1) with
        | none => none
        | some c1 =>
          if c1 = 'h' then
            some (s.check_keyword 2 2 ['i', 's'] TokenType.thisKw)
          else if c1 = 'r' then
            some (s.check_keyword 2 2 ['u', 'e'] TokenType.trueKw)
          else some TokenType.identifier
      else some TokenType.identifier
    else if c = 'v' then
      some (s.check_keyword 1 2 ['a', 'r'] TokenType.varKw)
    else if c = 'w' then
      some (s.check_keyword 1 4 ['h', 'i', 'l', 'e'] TokenType.whileKw)
    else some TokenType.identifier

/-- The scanning loop of `Scanner::identifier`, with fuel. -/
def identifier_loop : Nat → Scanner → Option Scanner
  | 0, _ => none
  | fuel + 1, s =>
    if is_alpha s.peek || s.peek.isDigit then
      match s.advance with
      | none => none
      | some (_, s') => identifier_loop fuel s'
    else
      some s

/-- `Scanner::identifier`. -/
def identifier (s : Scanner) : Option (Token × Scanner) :=
  match identifier_loop (s.source.length + 1) s with
  | none => none
  | some s' =>
    match s'.identifier_type with
    | none => none
    | some typ => some (s'.make_token typ, s')

/-- The digit-consuming loop of `Scanner::number`, with fuel. -/
def digits_loop : Nat → Scanner → Option Scanner
  | 0, _ => none
  | fuel + 1, s =>
    if s.peek.isDigit then
      match s.advance with
      | none => none
      | some (_, s') => digits_loop fuel s'
    else
      some s

/-- `Scanner::number`: digits, then an optional fractional part.  The
fraction test calls `peek_next`, which panics when `current` is on the
last character — e.g. for a source ending in `"1."`. -/
def number (s : Scanner) : Option (Token × Scanner) :=
  match digits_loop (s.source.length + 1) s with
  | none => none
  | some s =>
    if s.peek = '.' then
      match s.peek_next with
      | none => none
      | some c' =>
        if c'.isDigit then
          match s.advance with
          | none => none
          | some (_, s) =>
            match digits_loop (s.source.length + 1) s with
            | none => none
            | some s => some (s.make_token TokenType.number, s)
        else
          some (s.make_token TokenType.number, s)
    else
      some (s.make_token TokenType.number, s)

/-- The body-consuming loop of `Scanner::string`, with fuel. -/
def string_loop : Nat → Scanner → Option Scanner
  | 0, _ => none
  | fuel + 1, s =>
    if s.peek ≠ '"' && !s.at_end then
      let s := if s.peek = '\n' then { s with line := s.line + 1 } else s
      match s.advance with
      | none => none
      | some (_, s') => string_loop fuel s'
    else
      some s

/-- `Scanner::string`. -/
def stringTok (s : Scanner) : Option (Token × Scanner) :=
  match string_loop (s.source.length + 1) s with
  | none => none
  | some s =>
    if s.at_end then
      some (s.error_token "Unterminated string.", s)
    else
      match s.advance with
      | none => none
      | some (_, s) => some (s.make_token TokenType.string, s)

/-- `Scanner::scan_token`: skip whitespace, then produce one token.
`none` models a panic (reachable through `peek_next`). -/
def scan_token (s : Scanner) : Option (Token × Scanner) :=
  match skip_whitespace (s.source.length + 1) s with
  | none => none
  | some s =>
  let s := { s with start := s.current }
  if s.at_end then
    some (s.make_token TokenType.eof, s)
  else
    match s.advance with
    | none => none
    | some (c, s) =>
    if is_alpha c then
      s.identifier
    else if c.isDigit then
      s.number
    else if c = '(' then some (s.make_token TokenType.leftParen, s)
    else if c = ')' then some (s.make_token TokenType.rightParen, s)
    else if c = '{' then some (s.make_token TokenType.leftBrace, s)
    else if c = '}' then some (s.make_token TokenType.rightBrace, s)
    else if c = ';' then some (s.make_token TokenType.semicolon, s)
    else if c = ',' then some (s.make_token TokenType.comma, s)
    else if c = '.' then some (s.make_token TokenType.dot, s)
    else if c = '-' then some (s.make_token TokenType.minus, s)
    else if c = '+' then some (s.make_token TokenType.plus, s)
    else if c = '/' then some (s.make_token TokenType.slash, s)
    else if c = '*' then some (s.make_token TokenType.star, s)
    else if c = '!' then
      let (m, s) := s.matchesChar '='
      some (s.make_token
        (if m then TokenType.bangEqual else TokenType.bang), s)
    else if c = '=' then
      let (m, s) := s.matchesChar '='
      some (s.make_token
        (if m then TokenType.equalEqual else TokenType.equal), s)
    else if c = '<' then
      let (m, s) := s.matchesChar '='
      some (s.make_token
        (if m then TokenType.lessEqual else TokenType.less), s)
    else if c = '>' then
      let (m, s) := s.matchesChar '='
      some (s.make_token
        (if m then TokenType.greaterEqual else TokenType.greater), s)
    else if c = '"' then
      s.stringTok
    else
      some (s.error_token "Unexpected character.", s)

end Scanner

/-! ## clox: compile-error reporting (`Vm::error_at` in
`src/clox/src/compile.rs`) -/

/-- The stderr text produced by one non-suppressed `Vm::error_at(token,
message)` call (the concatenation of its `eprint!` calls).  As written
in the source, the non-EOF branch prints the *message* inside the
quotes (where C clox prints the token's lexeme), and no branch ever
prints a `": <message>"` suffix.  `none` models the early return when
`panic_mode` is already set. -/
def error_at (panic_mode : Bool) (token : Token) (message : String) :
    Option String :=
  if panic_mode then none
  else some
    ("[line " ++ toString token.line ++ "] Error" ++
      (if token.typ.is_eof then " at end"
       else if token.typ.is_error then ""
       else " at '" ++ message ++ "'"))

end Clox

/-! ## jlox: tokens and AST (`src/jlox/src/token_type.rs`,
`src/jlox/src/token.rs`, `src/jlox/src/expr.rs`, `src/jlox/src/stmt.rs`) -/

namespace Jlox

/-- `enum TokenType` of jlox. -/
inductive TokenType where
  | leftParen | rightParen | leftBrace | rightBrace
  | comma | dot | minus | plus | semicolon | slash | star
  | bang | bangEqual | equal | equalEqual
  | greater | greaterEqual | less | lessEqual
  | identifier | stringLit | number
  | andKw | classKw | elseKw | falseKw | funKw | forKw | ifKw | nilKw
  | orKw | printKw | returnKw | superKw | thisKw | trueKw | varKw | whileKw
  | eof
deriving DecidableEq, Repr

namespace TokenType

/-- `TokenType::is_eof`. -/
def is_eof : TokenType → Bool
  | eof => true
  | _ => false

/-- `TokenType::is_or`. -/
def is_or : TokenType → Bool
  | orKw => true
  | _ => false

end TokenType

/-- `enum Literal` (`src/jlox/src/token.rs`): the literal payload of a
token.  Its hand-written `PartialEq` compares numbers bitwise
(`to_bits`), which on the modelled `F64` fragment coincides with
structural equality (in particular NaN payloads equal themselves). -/
inductive Literal where
  | string (s : String)
  | number (x : F64)
  | true
  | false
  | null
deriving DecidableEq, Repr

/-- `struct Token`: kind, lexeme, literal payload, line. -/
structure Token where
  typ : TokenType
  lexeme : String
  literal : Literal
  line : Nat
deriving DecidableEq, Repr

/-- `enum Expr` (`src/jlox/src/expr.rs`).  `call`'s arguments are an
ordered list; `null` is the explicit absent-child sentinel. -/
inductive Expr where
  | assign (name : Token) (value : Expr)
  | binary (left : Expr) (operator : Token) (right : Expr)
  | call (callee : Expr) (paren : Token) (arguments : List Expr)
  | grouping (expression : Expr)
  | literal (l : Literal)
  | logical (left : Expr) (operator : Token) (right : Expr)
  | null
  | unary (operator : Token) (right : Expr)
  | Variable (name : Token)
deriving Repr

/-- `Expr::is_null`. -/
def Expr.is_null : Expr → Bool
  | Expr.null => Bool.true
  | _ => Bool.false

/-- `enum Stmt` (`src/jlox/src/stmt.rs`). -/
inductive Stmt where
  | block (statements : List Stmt)
  | expression (e : Expr)
  | function (name : Token) (params : List Token) (body : List Stmt)
  | ifStmt (condition : Expr) (then_branch : Stmt) (else_branch : Stmt)
  | null
  | print (e : Expr)
  | ret (keyword : Token) (value : Expr)
  | var (name : Token) (initializer : Expr)
  | whileStmt (condition : Expr) (body : Stmt)
deriving Repr

/-- `Stmt::is_null`. -/
def Stmt.is_null : Stmt → Bool
  | Stmt.null => Bool.true
  | _ => Bool.false

-- Structural equality on `Expr` (the derived Rust `PartialEq`, given
-- the `Literal` bitwise-number equality noted above).
mutual

/-- Structural equality on `Expr`. -/
def exprBEq : Expr → Expr → Bool
  | Expr.assign n1 v1, Expr.assign n2 v2 => n1 == n2 && exprBEq v1 v2
  | Expr.binary l1 o1 r1, Expr.binary l2 o2 r2 =>
    exprBEq l1 l2 && o1 == o2 && exprBEq r1 r2
  | Expr.call c1 p1 a1, Expr.call c2 p2 a2 =>
    exprBEq c1 c2 && p1 == p2 && exprsBEq a1 a2
  | Expr.grouping e1, Expr.grouping e2 => exprBEq e1 e2
  | Expr.literal l1, Expr.literal l2 => l1 == l2
  | Expr.logical l1 o1 r1, Expr.logical l2 o2 r2 =>
    exprBEq l1 l2 && o1 == o2 && exprBEq r1 r2
  | Expr.null, Expr.null => Bool.true
  | Expr.unary o1 r1, Expr.unary o2 r2 => o1 == o2 && exprBEq r1 r2
  | Expr.Variable n1, Expr.Variable n2 => n1 == n2
  | _, _ => Bool.false

def exprsBEq : List Expr → List Expr → Bool
  | [], [] => Bool.true
  | e1 :: r1, e2 :: r2 => exprBEq e1 e2 && exprsBEq r1 r2
  | _, _ => Bool.false

end

-- Structural equality on `Stmt` (the derived Rust `PartialEq`).
mutual

/-- Structural equality on `Stmt`. -/
def stmtBEq : Stmt → Stmt → Bool
  | Stmt.block s1, Stmt.block s2 => stmtsBEq s1 s2
  | Stmt.expression e1, Stmt.expression e2 => exprBEq e1 e2
  | Stmt.function n1 p1 b1, Stmt.function n2 p2 b2 =>
    n1 == n2 && p1 == p2 && stmtsBEq b1 b2
  | Stmt.ifStmt c1 t1 e1, Stmt.ifStmt c2 t2 e2 =>
    exprBEq c1 c2 && stmtBEq t1 t2 && stmtBEq e1 e2
  | Stmt.null, Stmt.null => Bool.true
  | Stmt.print e1, Stmt.print e2 => exprBEq e1 e2
  | Stmt.ret k1 v1, Stmt.ret k2 v2 => k1 == k2 && exprBEq v1 v2
  | Stmt.var n1 i1, Stmt.var n2 i2 => n1 == n2 && exprBEq i1 i2
  | Stmt.whileStmt c1 b1, Stmt.whileStmt c2 b2 =>
    exprBEq c1 c2 && stmtBEq b1 b2
  | _, _ => Bool.false

def stmtsBEq : List Stmt → List Stmt → Bool
  | [], [] => Bool.true
  | s1 :: r1, s2 :: r2 => stmtBEq s1 s2 && stmtsBEq r1 r2
  | _, _ => Bool.false

end

/-! ## jlox: static-error reporting (`src/jlox/src/lib.rs`) -/

/-- `Lox::report(line, wher, message)`: the stderr line
`[line N] Error<where>: <message>`. -/
def report (line : Nat) (wher : String) (message : String) : String :=
  "[line " ++ toString line ++ "] Error" ++ wher ++ ": " ++ message

/-- `Lox::error(line, message)`: `report` with empty location context. -/
def errorReport (line : Nat) (message : String) : String :=
  report line "" message

/-- `Lox::parse_error(token, message)`: `" at end"` for the EOF token,
`" at '<lexeme>'"` otherwise. -/
def parse_error (token : Token) (message : String) : String :=
  if token.typ.is_eof then
    report token.line " at end" message
  else
    report token.line (" at '" ++ token.lexeme ++ "'") message

end Jlox


/-! ## jlox: runtime values and the environment
(`src/jlox/src/interpreter/value.rs`, `src/jlox/src/interpreter/function.rs`,
`src/jlox/src/interpreter/builtin.rs`, `src/jlox/src/environment.rs`)

A heap cell `Rc<RefCell<Value>>` is modelled as an index into an explicit
store (`Store`).  An environment frame (`HashMap<String, Rc<RefCell<Value>>>`)
is an association list from names to cell indices with unique keys
(`insert` replaces); the environment is the frame stack with the **top
frame at the head** of the list, so Rust's top-to-bottom iteration
`(0..len).rev()` is plain head-to-tail iteration here, `define` writes to
the head, and `ancestor(distance)` is the frame at position `distance`
from the head. -/

namespace Jlox

/-- One environment frame: name to heap-cell index. -/
abbrev Frame := List (String × Nat)

/-- The environment: stack of frames, top frame first. -/
abbrev Env := List Frame

/-- `HashMap::insert`: replace the binding if present, add it
otherwise. -/
def Frame.insert : Frame → String → Nat → Frame
  | [], k, v => [(k, v)]
  | (k', v') :: rest, k, v =>
    if k' = k then (k, v) :: rest else (k', v') :: Frame.insert rest k v

/-- `HashMap::get`. -/
def Frame.get : Frame → String → Option Nat
  | [], _ => none
  | (k', v') :: rest, k => if k' = k then some v' else Frame.get rest k

/-- `HashMap::contains_key`. -/
def Frame.contains_key (f : Frame) (k : String) : Bool :=
  (f.get k).isSome

/-- `struct Function` (`src/jlox/src/interpreter/function.rs`): name,
parameter tokens, body, and the captured closure environment.  The
closure holds shared cells: cloning an `Environment` clones the frame
maps but shares every `Rc` cell, which the index representation gives
for free. -/
structure Function where
  name : String
  params : List Token
  body : List Stmt
  closure : Env
deriving Repr

/-- jlox runtime value (`enum Value` in
`src/jlox/src/interpreter/value.rs`).  A `Builtin` carries its `params`
vector (used only through `arity()`); its host function pointer — the
out-of-scope `clock` — is not part of the value model. -/
inductive Value where
  | nil
  | boolean (b : Bool)
  | number (x : F64)
  | string (s : String)
  | function (f : Function)
  | builtin (params : List Value)
deriving Repr

/-- `Value::is_truthy`: nil and `false` are falsey, all else truthy. -/
def Value.is_truthy : Value → Bool
  | Value.nil => false
  | Value.boolean b => b
  | _ => true

/-- Rust `Display for Value`
(`src/jlox/src/interpreter/value.rs`, with `Display for Function` and
`Debug for Builtin`). -/
def Value.display : Value → String
  | Value.nil => "nil"
  | Value.boolean b => if b then "true" else "false"
  | Value.number n => n.display
  | Value.string s => s
  | Value.function _ => "<fn todo!>"
  | Value.builtin _ => "<native fn>"

/-- The `PartialEq` used by the evaluator's `==`/`!=` on
`Rc<RefCell<Value>>`: payload comparison for the atomic kinds, the
constant-false `impl PartialEq for Builtin` for builtins.  For two
function values Rust recursively compares the captured environments'
cell *contents*; here the captured environments are compared by their
cell structure instead — an approximation recorded because no settled
property ever evaluates `==` on function values. -/
def Value.beqInterp : Value → Value → Bool
  | Value.nil, Value.nil => true
  | Value.boolean a, Value.boolean b => a == b
  | Value.number a, Value.number b => F64.beq a b
  | Value.string a, Value.string b => a == b
  | Value.function f, Value.function g =>
    f.name == g.name && f.params == g.params && stmtsBEq f.body g.body &&
      f.closure == g.closure
  | Value.builtin _, Value.builtin _ => false
  | _, _ => false

/-- The heap: cell index to value. -/
abbrev Store := List Value

/-- Allocate a fresh cell (`Rc::new(RefCell::new(value))`), returning
the extended store and the new cell's index. -/
def Store.alloc (store : Store) (v : Value) : Store × Nat :=
  (store ++ [v], store.length)

/-- Read a cell (`.borrow()`); cells read by the evaluator always
exist, so the default is never hit. -/
def Store.read (store : Store) (c : Nat) : Value :=
  store.getD c Value.nil

/-- `enum RuntimeError` (`src/jlox/src/interpreter.rs`): a genuine
error carrying message and token, or the non-local `Return` signal
carrying the returned cell. -/
inductive RuntimeError where
  | error (message : String) (token : Token)
  | ret (v : Nat)
deriving Repr

namespace Environment

/-- `Environment::new`: a single (global) frame. -/
def new : Env := [[]]

/-- `Environment::push`. -/
def push (env : Env) : Env := [] :: env

/-- `Environment::pop` (`Vec::pop`: a no-op on an empty stack). -/
def pop (env : Env) : Env := env.tail

/-- `Environment::define`: bind `name` in the top frame to a fresh cell
holding `value`.  `none` models the `len - 1` underflow panic on an
empty stack (never reached: the global frame is never popped). -/
def define (env : Env) (store : Store) (name : String) (value : Value) :
    Option (Env × Store) :=
  match env with
  | [] => none
  | top :: rest =>
    let (store', cell) := store.alloc value
    some ((top.insert name cell) :: rest, store')

/-- `Environment::get`: walk the frames from the top; the first frame
containing the name yields (a shared clone of) its cell.  An absent
name is the `Undefined variable 'X'.` runtime error. -/
def get (env : Env) (name : Token) : Except RuntimeError Nat :=
  match env with
  | [] =>
    Except.error (RuntimeError.error
      ("Undefined variable '" ++ name.lexeme ++ "'.") name)
  | top :: rest =>
    match top.get name.lexeme with
    | some cell => Except.ok cell
    | none => get rest name

/-- `Environment::ancestor(distance)` composed with the frame lookup of
`Environment::get_at`: address the frame `distance` below the top.  The
outer `none` models the index panic when `distance` exceeds the stack
height. -/
def get_at (env : Env) (distance : Nat) (name : Token) :
    Option (Except RuntimeError Nat) :=
  match env.get? distance with
  | none => none
  | some frame =>
    match frame.get name.lexeme with
    | some cell => some (Except.ok cell)
    | none =>
      some (Except.error (RuntimeError.error
        ("Undefined variable '" ++ name.lexeme ++ "'.") name))

/-- `Environment::assign`: walk the frames from the top; in the first
frame containing the name, overwrite the *contents* of the existing
cell (`*b = value` through the `RefCell`) and return that cell.  The
cell index is unchanged — every alias observes the new value. -/
def assign (env : Env) (store : Store) (name : Token) (value : Value) :
    Except RuntimeError (Store × Nat) :=
  match env with
  | [] =>
    Except.error (RuntimeError.error
      ("Undefined variable '" ++ name.lexeme ++ "'.") name)
  | top :: rest =>
    if top.contains_key name.lexeme then
      match top.get name.lexeme with
      | some cell => Except.ok (store.set cell value, cell)
      | none => Except.ok (store, 0)
    else
      assign rest store name value

/-- `Environment::assign_at`: overwrite the cell bound to the name in
the frame `distance` below the top.  `none` models the panics: the
frame index going out of bounds, or the `unwrap` of an absent name. -/
def assign_at (env : Env) (store : Store) (distance : Nat) (name : Token)
    (value : Value) : Option (Store × Nat) :=
  match env.get? distance with
  | none => none
  | some frame =>
    match frame.get name.lexeme with
    | none => none
    | some cell => some (store.set cell value, cell)

end Environment

end Jlox

/-! ## jlox: the tree-walking evaluator (`src/jlox/src/interpreter.rs`
and `Function::call` in `src/jlox/src/interpreter/function.rs`)

The interpreter state is the environment the current code executes
against (`self.globals` in the source), the heap, and the accumulated
`print` output.  `execute`/`evaluate` return the produced cell or a
`RuntimeError` (which includes the `Return` signal); the `Option` layer
is fuel exhaustion or a Rust panic (the `todo!()`/`unreachable!()`
arms).  `Function::call` runs the body against the function's captured
closure environment plus one fresh parameter frame, then restores the
caller's environment, converting a `Return` signal into an ordinary
result. -/

namespace Jlox

/-- Interpreter state: current environment, heap, `print` output. -/
structure InterpState where
  env : Env
  store : Store
  output : List String
deriving Repr

/-- Bind each parameter in the top frame to a fresh cell holding a
clone of the corresponding argument's value (the parameter-binding loop
of `Function::call`). -/
def defineParams (env : Env) (store : Store) :
    List Token → List Nat → Option (Env × Store)
  | [], _ => some (env, store)
  | _, [] => some (env, store)
  | p :: ps, a :: as' =>
    match Environment.define env store p.lexeme (store.read a) with
    | none => none
    | some (env', store') => defineParams env' store' ps as'

/-- The work items of the evaluator, combining the mutually recursive
`Interpreter::execute`, its block statement loop, `Interpreter::evaluate`,
the call-argument loop, and `Function::call` into one fuel-indexed
function (`interp`) so that each is a plain structural recursion. -/
inductive Task where
  | stmt (s : Stmt)
  | stmtSeq (ss : List Stmt)
  | expr (e : Expr)
  | exprArgs (es : List Expr) (acc : List Nat)
  | callF (f : Function) (argCells : List Nat)

/-- The result carried by each work item: a produced cell, except for
the argument loop, which produces the list of argument cells. -/
@[reducible]
def Task.Res : Task → Type
  | Task.exprArgs _ _ => List Nat
  | _ => Nat

/-- The evaluator.  The `Task.stmt` arms are `Interpreter::execute`
(`src/jlox/src/interpreter.rs`); `Task.stmtSeq` is the statement loop
of its `Stmt::Block` arm; the `Task.expr` arms are
`Interpreter::evaluate`; `Task.exprArgs` is the argument loop of the
`Expr::Call` arm; `Task.callF` is `Function::call`
(`src/jlox/src/interpreter/function.rs`): push a fresh frame onto the
captured closure, bind the parameters there, execute the body as a
`Block` against that environment, pop the frame, convert a `Return`
signal into the result, and resume in the caller's environment (whose
frames were never touched; all heap effects persist). -/
def interp : (fuel : Nat) → InterpState → (t : Task) →
    Option (InterpState × Except RuntimeError t.Res)
  | 0, _, _ => none
  | fuel + 1, st, Task.stmt stmt =>
    match stmt with
    | Stmt.expression e => interp fuel st (Task.expr e)
    | Stmt.print e =>
      match interp fuel st (Task.expr e) with
      | none => none
      | some (st', Except.error e') => some (st', Except.error e')
      | some (st', Except.ok c) =>
        some ({ st' with output := st'.output ++ [(st'.store.read c).display] },
          Except.ok c)
    | Stmt.var name initializer =>
      match
        (if !initializer.is_null then
          interp fuel st (Task.expr initializer)
        else
          let (store', c) := st.store.alloc Value.nil
          some ({ st with store := store' }, Except.ok c)) with
      | none => none
      | some (st', Except.error e') => some (st', Except.error e')
      | some (st', Except.ok c) =>
        match Environment.define st'.env st'.store name.lexeme
            (st'.store.read c) with
        | none => none
        | some (env', store') =>
          let (store'', c') := Store.alloc store' Value.nil
          some ({ st' with env := env', store := store'' }, Except.ok c')
    | Stmt.block statements =>
      match interp fuel { st with env := Environment.push st.env }
          (Task.stmtSeq statements) with
      | none => none
      | some (st', Except.error e') =>
        some ({ st' with env := Environment.pop st'.env }, Except.error e')
      | some (st', Except.ok _) =>
        let st'' := { st' with env := Environment.pop st'.env }
        let (store', c) := st''.store.alloc Value.nil
        some ({ st'' with store := store' }, Except.ok c)
    | Stmt.ifStmt condition then_branch else_branch =>
      match interp fuel st (Task.expr condition) with
      | none => none
      | some (st', Except.error e') => some (st', Except.error e')
      | some (st', Except.ok c) =>
        if (st'.store.read c).is_truthy then
          interp fuel st' (Task.stmt then_branch)
        else if !else_branch.is_null then
          interp fuel st' (Task.stmt else_branch)
        else
          let (store', c') := st'.store.alloc Value.nil
          some ({ st' with store := store' }, Except.ok c')
    | Stmt.null => none
    | Stmt.whileStmt condition body =>
      match interp fuel st (Task.expr condition) with
      | none => none
      | some (st', Except.error e') => some (st', Except.error e')
      | some (st', Except.ok c) =>
        if (st'.store.read c).is_truthy then
          match interp fuel st' (Task.stmt body) with
          | none => none
          | some (st'', Except.error e') => some (st'', Except.error e')
          | some (st'', Except.ok _) =>
            interp fuel st'' (Task.stmt (Stmt.whileStmt condition body))
        else
          let (store', c') := st'.store.alloc Value.nil
          some ({ st' with store := store' }, Except.ok c')
    | Stmt.function name params body =>
      let f : Function :=
        { name := name.lexeme, params := params, body := body,
          closure := st.env }
      match Environment.define st.env st.store name.lexeme
          (Value.function f) with
      | none => none
      | some (env', store') =>
        let (store'', c) := Store.alloc store' Value.nil
        some ({ st with env := env', store := store'' }, Except.ok c)
    | Stmt.ret _keyword value =>
      match
        (if !value.is_null then
          interp fuel st (Task.expr value)
        else
          let (store', c) := st.store.alloc Value.nil
          some ({ st with store := store' }, Except.ok c)) with
      | none => none
      | some (st', Except.error e') => some (st', Except.error e')
      | some (st', Except.ok c) =>
        some (st', Except.error (RuntimeError.ret c))
  | _fuel + 1, st, Task.stmtSeq [] => some (st, Except.ok 0)
  | fuel + 1, st, Task.stmtSeq (s :: rest) =>
    (match interp fuel st (Task.stmt s) with
    | none => none
    | some (st', Except.error e') => some (st', Except.error e')
    | some (st', Except.ok _) => interp fuel st' (Task.stmtSeq rest))
  | fuel + 1, st, Task.expr expr =>
    match expr with
    | Expr.binary left operator right =>
      match interp fuel st (Task.expr left) with
      | none => none
      | some (st1, Except.error e') => some (st1, Except.error e')
      | some (st1, Except.ok lc) =>
        match interp fuel st1 (Task.expr right) with
        | none => none
        | some (st2, Except.error e') => some (st2, Except.error e')
        | some (st2, Except.ok rc) =>
          let lv := st2.store.read lc
          let rv := st2.store.read rc
          let numbers :
              (F64 → F64 → Value) →
                Option (InterpState × Except RuntimeError Nat) :=
            fun op =>
              match lv, rv with
              | Value.number a, Value.number b =>
                let (store', c) := st2.store.alloc (op a b)
                some ({ st2 with store := store' }, Except.ok c)
              | _, _ =>
                some (st2, Except.error (RuntimeError.error
                  "Operands must be numbers." operator))
          match operator.typ with
          | TokenType.minus => numbers (fun a b => Value.number (a.sub b))
          | TokenType.slash => numbers (fun a b => Value.number (a.div b))
          | TokenType.star => numbers (fun a b => Value.number (a.mul b))
          | TokenType.plus =>
            match lv, rv with
            | Value.number a, Value.number b =>
              let (store', c) := st2.store.alloc (Value.number (a.add b))
              some ({ st2 with store := store' }, Except.ok c)
            | Value.string a, Value.string b =>
              let (store', c) := st2.store.alloc (Value.string (a ++ b))
              some ({ st2 with store := store' }, Except.ok c)
            | _, _ =>
              some (st2, Except.error (RuntimeError.error
                "Operands must be two numbers or two strings." operator))
          | TokenType.greater => numbers (fun a b => Value.boolean (a.gt b))
          | TokenType.greaterEqual =>
            numbers (fun a b => Value.boolean (a.gt b || F64.beq a b))
          | TokenType.less => numbers (fun a b => Value.boolean (a.lt b))
          | TokenType.lessEqual =>
            numbers (fun a b => Value.boolean (a.lt b || F64.beq a b))
          | TokenType.bangEqual =>
            let (store', c) := st2.store.alloc
              (Value.boolean (!(lv.beqInterp rv)))
            some ({ st2 with store := store' }, Except.ok c)
          | TokenType.equalEqual =>
            let (store', c) := st2.store.alloc
              (Value.boolean (lv.beqInterp rv))
            some ({ st2 with store := store' }, Except.ok c)
          | _ => none
    | Expr.grouping e => interp fuel st (Task.expr e)
    | Expr.literal l =>
      let v : Value :=
        match l with
        | Literal.string s => Value.string s
        | Literal.number n => Value.number n
        | Literal.true => Value.boolean true
        | Literal.false => Value.boolean false
        | Literal.null => Value.nil
      let (store', c) := st.store.alloc v
      some ({ st with store := store' }, Except.ok c)
    | Expr.unary operator right =>
      match interp fuel st (Task.expr right) with
      | none => none
      | some (st', Except.error e') => some (st', Except.error e')
      | some (st', Except.ok rc) =>
        match operator.typ with
        | TokenType.minus =>
          match st'.store.read rc with
          | Value.number n =>
            let (store', c) := st'.store.alloc (Value.number n.neg)
            some ({ st' with store := store' }, Except.ok c)
          | _ =>
            some (st', Except.error (RuntimeError.error
              "Operand must be a number." operator))
        | TokenType.bang =>
          let (store', c) := st'.store.alloc
            (Value.boolean (!(st'.store.read rc).is_truthy))
          some ({ st' with store := store' }, Except.ok c)
        | _ => none
    | Expr.null => none
    | Expr.Variable name =>
      match Environment.get st.env name with
      | Except.ok c => some (st, Except.ok c)
      | Except.error e' => some (st, Except.error e')
    | Expr.assign name value =>
      match interp fuel st (Task.expr value) with
      | none => none
      | some (st', Except.error e') => some (st', Except.error e')
      | some (st', Except.ok vc) =>
        match Environment.assign st'.env st'.store name
            (st'.store.read vc) with
        | Except.ok (store', c) =>
          some ({ st' with store := store' }, Except.ok c)
        | Except.error e' => some (st', Except.error e')
    | Expr.logical left operator right =>
      match interp fuel st (Task.expr left) with
      | none => none
      | some (st', Except.error e') => some (st', Except.error e')
      | some (st', Except.ok lc) =>
        if operator.typ.is_or then
          if (st'.store.read lc).is_truthy then
            some (st', Except.ok lc)
          else
            interp fuel st' (Task.expr right)
        else
          if !(st'.store.read lc).is_truthy then
            some (st', Except.ok lc)
          else
            interp fuel st' (Task.expr right)
    | Expr.call callee paren arguments =>
      match interp fuel st (Task.expr callee) with
      | none => none
      | some (st', Except.error e') => some (st', Except.error e')
      | some (st', Except.ok fc) =>
        match interp fuel st' (Task.exprArgs arguments []) with
        | none => none
        | some (st'', Except.error e') => some (st'', Except.error e')
        | some (st'', Except.ok argCells) =>
          match st''.store.read fc with
          | Value.function f =>
            if argCells.length ≠ f.params.length then
              some (st'', Except.error (RuntimeError.error
                ("Expected " ++ toString f.params.length ++
                  " arguments but got " ++ toString argCells.length ++ ".")
                paren))
            else
              interp fuel st'' (Task.callF f argCells)
          | Value.builtin params =>
            if argCells.length ≠ params.length then
              some (st'', Except.error (RuntimeError.error
                ("Expected " ++ toString params.length ++
                  " arguments but got " ++ toString argCells.length ++ ".")
                paren))
            else
              -- The only builtin is `clock`, an external collaborator
              -- (spec par. 1): it returns a host wall-clock reading, not
              -- modelled; no settled property calls a builtin.
              let (store', c) := st''.store.alloc Value.nil
              some ({ st'' with store := store' }, Except.ok c)
          | _ =>
            some (st'', Except.error (RuntimeError.error
              "Can only call functions and classes." paren))
  | _fuel + 1, st, Task.exprArgs [] acc => some (st, Except.ok acc.reverse)
  | fuel + 1, st, Task.exprArgs (e :: rest) acc =>
    (match interp fuel st (Task.expr e) with
    | none => none
    | some (st', Except.error e') => some (st', Except.error e')
    | some (st', Except.ok c) => interp fuel st' (Task.exprArgs rest (c :: acc)))
  | fuel + 1, st, Task.callF f argCells =>
    let callEnv := Environment.push f.closure
    match defineParams callEnv st.store f.params argCells with
    | none => none
    | some (callEnv', store') =>
      match interp fuel { st with env := callEnv', store := store' }
          (Task.stmt (Stmt.block f.body)) with
      | none => none
      | some (st', res) =>
        let st'' := { st' with env := st.env }
        match res with
        | Except.ok c => some (st'', Except.ok c)
        | Except.error (RuntimeError.error m t) =>
          some (st'', Except.error (RuntimeError.error m t))
        | Except.error (RuntimeError.ret v) => some (st'', Except.ok v)

/-- `Interpreter::execute` — the `Task.stmt` face of `interp`. -/
def execute (fuel : Nat) (st : InterpState) (stmt : Stmt) :
    Option (InterpState × Except RuntimeError Nat) :=
  interp fuel st (Task.stmt stmt)

/-- `Interpreter::evaluate` — the `Task.expr` face of `interp`. -/
def evaluate (fuel : Nat) (st : InterpState) (e : Expr) :
    Option (InterpState × Except RuntimeError Nat) :=
  interp fuel st (Task.expr e)

end Jlox

/-! ## jlox: the driver (`Lox::interpret`, `Lox::runtime_error`,
`Lox::run` in `src/jlox/src/lib.rs`) -/

namespace Jlox

/-- `Lox::new`: the initial interpreter state, with the `clock` builtin
defined in the global frame (cell 0). -/
def initState : InterpState :=
  { env := [[("clock", 0)]], store := [Value.builtin []], output := [] }

/-- `Lox::interpret` together with `Lox::runtime_error`: execute each
top-level statement in order; a `RuntimeError::Error` prints
`<message>\n[line N]` to stderr (collected in the second component) and
execution continues with the next statement.  A `Return` signal
escaping to the top level reaches the `unreachable!()` arms of
`RuntimeError::message`/`line` — a panic, modelled as `none`. -/
def interpret (fuel : Nat) : InterpState → List String → List Stmt →
    Option (InterpState × List String)
  | st, errlog, [] => some (st, errlog)
  | st, errlog, s :: rest =>
    match execute fuel st s with
    | none => none
    | some (st', Except.ok _) => interpret fuel st' errlog rest
    | some (st', Except.error (RuntimeError.error m t)) =>
      interpret fuel st'
        (errlog ++ [m ++ "\n[line " ++ toString t.line ++ "]"]) rest
    | some (_, Except.error (RuntimeError.ret _)) => none

/-- `Lox::run` (src/jlox/src/lib.rs, lines 117–131), from the parsed
AST onward: scanning and parsing happen upstream of this model, so the
input is the statement list they produce (for a source with no static
scan/parse error, i.e. `had_error` false).  The resolver invocation
that would follow parsing is **commented out** in the source
(`// let mut resolver = ...; // resolver.resolve(&statements);`), so no
resolution pass runs, `locals` stays empty, and the statements go
straight to `interpret`. -/
def run (fuel : Nat) (statements : List Stmt) :
    Option (InterpState × List String) :=
  interpret fuel initState [] statements

end Jlox

/-! ## jlox: the resolver (`src/jlox/src/resolver.rs`) -/

namespace Jlox

/-- `enum FunctionType` of the resolver. -/
inductive FunctionType where
  | none
  | function
deriving DecidableEq, Repr

/-- `FunctionType::is_none`. -/
def FunctionType.is_none : FunctionType → Bool
  | FunctionType.none => true
  | _ => false

/-- One resolver scope: name to "initializer fully evaluated". -/
abbrev Scope := List (String × Bool)

/-- `HashMap::insert` on a scope. -/
def Scope.insert : Scope → String → Bool → Scope
  | [], k, v => [(k, v)]
  | (k', v') :: rest, k, v =>
    if k' = k then (k, v) :: rest else (k', v') :: Scope.insert rest k v

/-- `HashMap::get` on a scope. -/
def Scope.get : Scope → String → Option Bool
  | [], _ => none
  | (k', v') :: rest, k => if k' = k then some v' else Scope.get rest k

/-- `HashMap::contains_key` on a scope. -/
def Scope.contains_key (s : Scope) (k : String) : Bool :=
  (s.get k).isSome

/-- The side table `locals: HashMap<Expr, usize>` filled through
`Interpreter::resolve`, keyed by structural `Expr` equality. -/
def localsInsert : List (Expr × Nat) → Expr → Nat → List (Expr × Nat)
  | [], e, d => [(e, d)]
  | (e', d') :: rest, e, d =>
    if exprBEq e' e then (e, d) :: rest
    else (e', d') :: localsInsert rest e d

/-- State of `struct Resolver` plus its two sinks: the scope stack (top
scope at the head, mirroring `Stack`'s end-push under the head-first
convention), the interpreter's `locals` table, the driver's error sink
(`Lox::error` / `Lox::parse_error` output lines), and
`current_function`. -/
structure Resolver where
  scopes : List Scope
  locals : List (Expr × Nat)
  errors : List String
  current_function : FunctionType
deriving Repr

namespace Resolver

/-- `Resolver::new`. -/
def new : Resolver :=
  { scopes := [], locals := [], errors := [],
    current_function := FunctionType.none }

/-- `Resolver::begin_scope`. -/
def begin_scope (r : Resolver) : Resolver :=
  { r with scopes := [] :: r.scopes }

/-- `Resolver::end_scope`. -/
def end_scope (r : Resolver) : Resolver :=
  { r with scopes := r.scopes.tail }

/-- `Resolver::declare`: in the top scope, report
`Already a variable with this name in this scope.` if the name is
already present, then mark it not-yet-defined.  No-op without scopes. -/
def declare (r : Resolver) (name : Token) : Resolver :=
  match r.scopes with
  | [] => r
  | scope :: rest =>
    let r' :=
      if scope.contains_key name.lexeme then
        { r with errors := r.errors ++
          [errorReport name.line
            "Already a variable with this name in this scope."] }
      else r
    { r' with scopes := (scope.insert name.lexeme false) :: rest }

/-- `Resolver::define`: mark the name defined in the top scope. -/
def define (r : Resolver) (name : Token) : Resolver :=
  match r.scopes with
  | [] => r
  | scope :: rest =>
    { r with scopes := (scope.insert name.lexeme true) :: rest }

/-- `Resolver::resolve_local`: walk the scopes from the innermost; the
first scope containing the name records the depth (`len - 1 - i`, the
number of scopes between reference and declaration) in the
interpreter's `locals` table; a name in no scope records nothing. -/
def resolve_local (r : Resolver) (expr : Expr) (name : Token) : Resolver :=
  let rec walk : List Scope → Nat → Option Nat
    | [], _ => Option.none
    | scope :: rest, depth =>
      if scope.contains_key name.lexeme then some depth
      else walk rest (depth + 1)
  match walk r.scopes 0 with
  | some depth => { r with locals := localsInsert r.locals expr depth }
  | Option.none => r

end Resolver

/-- The work items of the resolver, combining the mutually recursive
`resolve_stmt`, the statement-list loop `resolve`, `resolve_expr`, and
the call-argument loop into one fuel-indexed function so that each is a
plain structural recursion (`none` is fuel exhaustion; the theorems
always supply ample fuel). -/
inductive RTask where
  | stmt (s : Stmt)
  | stmts (ss : List Stmt)
  | expr (e : Expr)
  | exprs (es : List Expr)

/-- The resolver walk.  The `RTask.stmt` arms are
`Resolver::resolve_stmt` (with `Resolver::resolve_function` inlined in
the `Stmt::Function` arm: declare+define the name, then within a new
scope declare+define each parameter and resolve the body, with
`current_function` saved and restored); `RTask.stmts` is
`Resolver::resolve`; the `RTask.expr` arms are
`Resolver::resolve_expr`; `RTask.exprs` is the argument loop of its
`Expr::Call` arm. -/
def resolveGo : Nat → Resolver → RTask → Option Resolver
  | 0, _, _ => none
  | fuel + 1, r, RTask.stmt stmt =>
    match stmt with
    | Stmt.block statements =>
      match resolveGo fuel r.begin_scope (RTask.stmts statements) with
      | none => none
      | some r' => some r'.end_scope
    | Stmt.expression e => resolveGo fuel r (RTask.expr e)
    | Stmt.function name params body =>
      let r := (r.declare name).define name
      -- resolve_function(params, body, FunctionType::Function):
      let enclosing := r.current_function
      let r := { r with current_function := FunctionType.function }
      let r := r.begin_scope
      let r := params.foldl (fun r p => (r.declare p).define p) r
      match resolveGo fuel r (RTask.stmts body) with
      | none => none
      | some r' => some { r'.end_scope with current_function := enclosing }
    | Stmt.ifStmt condition then_branch else_branch =>
      match resolveGo fuel r (RTask.expr condition) with
      | none => none
      | some r1 =>
        match resolveGo fuel r1 (RTask.stmt then_branch) with
        | none => none
        | some r2 =>
          if !else_branch.is_null then
            resolveGo fuel r2 (RTask.stmt else_branch)
          else some r2
    | Stmt.null => some r
    | Stmt.print e => resolveGo fuel r (RTask.expr e)
    | Stmt.ret keyword value =>
      let r :=
        if r.current_function.is_none then
          { r with errors := r.errors ++
            [errorReport keyword.line "Can't return from top-level code"] }
        else r
      if !value.is_null then resolveGo fuel r (RTask.expr value) else some r
    | Stmt.var name initializer =>
      let r := r.declare name
      match
        (if !initializer.is_null then
          resolveGo fuel r (RTask.expr initializer)
        else some r) with
      | none => none
      | some r' => some (r'.define name)
    | Stmt.whileStmt condition body =>
      match resolveGo fuel r (RTask.expr condition) with
      | none => none
      | some r' => resolveGo fuel r' (RTask.stmt body)
  | _fuel + 1, r, RTask.stmts [] => some r
  | fuel + 1, r, RTask.stmts (s :: rest) =>
    (match resolveGo fuel r (RTask.stmt s) with
    | none => none
    | some r' => resolveGo fuel r' (RTask.stmts rest))
  | fuel + 1, r, RTask.expr expr =>
    match expr with
    | Expr.assign name value =>
      match resolveGo fuel r (RTask.expr value) with
      | none => none
      | some r' => some (r'.resolve_local (Expr.assign name value) name)
    | Expr.binary left _operator right =>
      match resolveGo fuel r (RTask.expr left) with
      | none => none
      | some r' => resolveGo fuel r' (RTask.expr right)
    | Expr.call callee _paren arguments =>
      match resolveGo fuel r (RTask.expr callee) with
      | none => none
      | some r' => resolveGo fuel r' (RTask.exprs arguments)
    | Expr.grouping e => resolveGo fuel r (RTask.expr e)
    | Expr.literal _ => some r
    | Expr.logical left _operator right =>
      match resolveGo fuel r (RTask.expr left) with
      | none => none
      | some r' => resolveGo fuel r' (RTask.expr right)
    | Expr.null => some r
    | Expr.unary _operator right => resolveGo fuel r (RTask.expr right)
    | Expr.Variable name =>
      let r :=
        if !r.scopes.isEmpty then
          let test := ((r.scopes.headD []).get name.lexeme).getD true
          if test = false then
            { r with errors := r.errors ++
              [parse_error name
                "Can't read local variable in its own initializer"] }
          else r
        else r
      some (r.resolve_local (Expr.Variable name) name)
  | _fuel + 1, r, RTask.exprs [] => some r
  | fuel + 1, r, RTask.exprs (e :: rest) =>
    (match resolveGo fuel r (RTask.expr e) with
    | none => none
    | some r' => resolveGo fuel r' (RTask.exprs rest))

/-- Run the resolver over a whole program (`Resolver::new` then
`Resolver::resolve`), with fuel. -/
def resolveProgram (fuel : Nat) (statements : List Stmt) : Option Resolver :=
  resolveGo fuel Resolver.new (RTask.stmts statements)

end Jlox

/-! ## jlox: the scanner (`src/jlox/src/scanner.rs`)

The `lox` field (the driver, used only as the `had_error` sink through
`Lox::error`) is modelled by collecting the reported error lines.
Unlike its clox counterpart, jlox's `peek_next` guards with
`current + 1 >= source.chars().count()` and is total. -/

namespace Jlox

/-- `is_alpha` (jlox): ASCII letters and underscore. -/
def is_alpha (c : Char) : Bool :=
  c.isLower || c.isUpper || c = '_'

/-- `is_alphanumeric` (jlox). -/
def is_alphanumeric (c : Char) : Bool :=
  c.isDigit || is_alpha c

/-- The `KEYWORDS` map. -/
def KEYWORDS : List (String × TokenType) :=
  [("and", TokenType.andKw), ("class", TokenType.classKw),
   ("else", TokenType.elseKw), ("false", TokenType.falseKw),
   ("for", TokenType.forKw), ("fun", TokenType.funKw),
   ("if", TokenType.ifKw), ("nil", TokenType.nilKw),
   ("or", TokenType.orKw), ("print", TokenType.printKw),
   ("return", TokenType.returnKw), ("super", TokenType.superKw),
   ("this", TokenType.thisKw), ("true", TokenType.trueKw),
   ("var", TokenType.varKw), ("while", TokenType.whileKw)]

/-- `struct Scanner` of jlox (the source as chars; the driver reference
replaced by the collected `Lox::error` lines). -/
structure Scanner where
  source : List Char
  tokens : List Token
  start : Nat
  current : Nat
  line : Nat
  errors : List String
deriving DecidableEq, Repr

/-- Parse the decimal digits (with an optional fractional part) of a
number lexeme — `str::parse::<f64>()` on the scanned text, which the
scanner guarantees matches `[0-9]+(\.[0-9]+)?`. -/
def parseNumber (cs : List Char) : F64 :=
  let digits := fun (l : List Char) =>
    l.foldl (fun acc c => acc * 10 + ((c.toNat - 48 : Nat) : Int)) (0 : Int)
  match cs.splitOn '.' with
  | [intPart] => F64.num (digits intPart) 1
  | [intPart, fracPart] =>
    F64.num (digits intPart * (10 : Int) ^ fracPart.length + digits fracPart)
      ((10 : Nat) ^ fracPart.length)
  | _ => F64.nan

namespace Scanner

/-- `Scanner::new`. -/
def new (source : List Char) : Scanner :=
  { source := source, tokens := [], start := 0, current := 0, line := 1,
    errors := [] }

/-- `Scanner::at_end`. -/
def at_end (s : Scanner) : Bool :=
  s.source.length ≤ s.current

/-- `Scanner::advance` (`nth(current).unwrap()`: `none` models the
unwrap panic, unreachable because every caller has checked `at_end`). -/
def advance (s : Scanner) : Option (Char × Scanner) :=
  match s.source.get? s.current with
  | none => none
  | some c => some (c, { s with current := s.current + 1 })

/-- The current lexeme `source[start..current]`. -/
def text (s : Scanner) : List Char :=
  (s.source.drop s.start).take (s.current - s.start)

/-- `Scanner::add_token`. -/
def add_token (s : Scanner) (typ : TokenType) (literal : Literal) : Scanner :=
  { s with tokens := s.tokens ++
      [{ typ := typ, lexeme := String.mk s.text, literal := literal,
         line := s.line }] }

/-- `Scanner::matches` (named `matchesChar` here; `matches` is reserved
in Lean). -/
def matchesChar (s : Scanner) (arg : Char) : Bool × Scanner :=
  if s.at_end then (false, s)
  else if s.source.getD s.current ' ' ≠ arg then (false, s)
  else (true, { s with current := s.current + 1 })

/-- `Scanner::peek` (`'\0'` at the end). -/
def peek (s : Scanner) : Char :=
  if s.at_end then Char.ofNat 0 else s.source.getD s.current ' '

/-- `Scanner::peek_next`: guarded with `current + 1 >=
source.chars().count()`, hence total — no out-of-bounds read, unlike
the clox scanner. -/
def peek_next (s : Scanner) : Char :=
  if s.source.length ≤ s.current + 1 then Char.ofNat 0
  else s.source.getD (s.current + 1) ' '

/-- The comment-skipping loop of the `'/'` arm, with fuel. -/
def comment_loop : Nat → Scanner → Option Scanner
  | 0, _ => none
  | fuel + 1, s =>
    if s.peek ≠ '\n' && !s.at_end then
      match s.advance with
      | none => none
      | some (_, s') => comment_loop fuel s'
    else
      some s

/-- The identifier-consuming loop of `Scanner::identifier`, with fuel. -/
def identifier_loop : Nat → Scanner → Option Scanner
  | 0, _ => none
  | fuel + 1, s =>
    if is_alphanumeric s.peek then
      match s.advance with
      | none => none
      | some (_, s') => identifier_loop fuel s'
    else
      some s

/-- `Scanner::identifier`: consume the identifier, then look the lexeme
up in `KEYWORDS`. -/
def identifier (s : Scanner) : Option Scanner :=
  match identifier_loop (s.source.length + 1) s with
  | none => none
  | some s =>
    let text := String.mk s.text
    let typ :=
      match KEYWORDS.lookup text with
      | some typ => typ
      | none => TokenType.identifier
    some (s.add_token typ Literal.null)

/-- The digit-consuming loop of `Scanner::number`, with fuel. -/
def digits_loop : Nat → Scanner → Option Scanner
  | 0, _ => none
  | fuel + 1, s =>
    if s.peek.isDigit then
      match s.advance with
      | none => none
      | some (_, s') => digits_loop fuel s'
    else
      some s

/-- `Scanner::number`: digits, an optional fraction (only when a digit
follows the dot — `peek_next` here is total), then parse the lexeme. -/
def number (s : Scanner) : Option Scanner :=
  match digits_loop (s.source.length + 1) s with
  | none => none
  | some s =>
    match
      (if s.peek = '.' && s.peek_next.isDigit then
        match s.advance with
        | none => none
        | some (_, s) => digits_loop (s.source.length + 1) s
      else some s) with
    | none => none
    | some s =>
      some (s.add_token TokenType.number (Literal.number (parseNumber s.text)))

/-- The body-consuming loop of `Scanner::string`, with fuel. -/
def string_loop : Nat → Scanner → Option Scanner
  | 0, _ => none
  | fuel + 1, s =>
    if s.peek ≠ '"' && !s.at_end then
      let s := if s.peek = '\n' then { s with line := s.line + 1 } else s
      match s.advance with
      | none => none
      | some (_, s') => string_loop fuel s'
    else
      some s

/-- `Scanner::string`: an unterminated string reports
`Unterminated string.` through `Lox::error`; otherwise the token's
literal is the interior text. -/
def stringTok (s : Scanner) : Option Scanner :=
  match string_loop (s.source.length + 1) s with
  | none => none
  | some s =>
    if s.at_end then
      some { s with errors := s.errors ++
        [errorReport s.line "Unterminated string."] }
    else
      match s.advance with
      | none => none
      | some (_, s) =>
        let interior :=
          (s.source.drop (s.start + 1)).take (s.current - 1 - s.start - 1)
        some (s.add_token TokenType.stringLit
          (Literal.string (String.mk interior)))

/-- `Scanner::scan_token`.  `none` models a panic (never reached: each
loop's fuel exceeds the characters it can consume). -/
def scan_token (s : Scanner) : Option Scanner :=
  match s.advance with
  | none => none
  | some (c, s) =>
    if c = '(' then some (s.add_token TokenType.leftParen Literal.null)
    else if c = ')' then some (s.add_token TokenType.rightParen Literal.null)
    else if c = '{' then some (s.add_token TokenType.leftBrace Literal.null)
    else if c = '}' then some (s.add_token TokenType.rightBrace Literal.null)
    else if c = ',' then some (s.add_token TokenType.comma Literal.null)
    else if c = '.' then some (s.add_token TokenType.dot Literal.null)
    else if c = '-' then some (s.add_token TokenType.minus Literal.null)
    else if c = '+' then some (s.add_token TokenType.plus Literal.null)
    else if c = ';' then some (s.add_token TokenType.semicolon Literal.null)
    else if c = '*' then some (s.add_token TokenType.star Literal.null)
    else if c = '!' then
      let (m, s) := s.matchesChar '='
      some (s.add_token
        (if m then TokenType.bangEqual else TokenType.bang) Literal.null)
    else if c = '=' then
      let (m, s) := s.matchesChar '='
      some (s.add_token
        (if m then TokenType.equalEqual else TokenType.equal) Literal.null)
    else if c = '<' then
      let (m, s) := s.matchesChar '='
      some (s.add_token
        (if m then TokenType.lessEqual else TokenType.less) Literal.null)
    else if c = '>' then
      let (m, s) := s.matchesChar '='
      some (s.add_token
        (if m then TokenType.greaterEqual else TokenType.greater) Literal.null)
    else if c = '/' then
      let (m, s) := s.matchesChar '/'
      if m then comment_loop (s.source.length + 1) s
      else some (s.add_token TokenType.slash Literal.null)
    else if c = ' ' || c = '\r' || c = '\t' then some s
    else if c = '\n' then some { s with line := s.line + 1 }
    else if c = '"' then s.stringTok
    else if c.isDigit then s.number
    else if is_alpha c then s.identifier
    else
      some { s with errors := s.errors ++
        [errorReport s.line "Unexpected character."] }

/-- The `while !self.at_end()` loop of `Scanner::scan_tokens`, with
fuel. -/
def scan_loop : Nat → Scanner → Option Scanner
  | 0, _ => none
  | fuel + 1, s =>
    if !s.at_end then
      match scan_token { s with start := s.current } with
      | none => none
      | some s' => scan_loop fuel s'
    else
      some s

/-- `Scanner::scan_tokens`: run the loop, then push the final `Eof`
token. -/
def scan_tokens (fuel : Nat) (s : Scanner) : Option (List Token × Scanner) :=
  match scan_loop fuel s with
  | none => none
  | some s =>
    let s := { s with tokens := s.tokens ++
      [{ typ := TokenType.eof, lexeme := "", literal := Literal.null,
         line := s.line }] }
    some (s.tokens, s)

end Scanner

end Jlox


/-! ## Concrete jlox programs (the parsed ASTs of the spec's scenario
sources) -/

namespace Jlox

/-- An identifier token. -/
def ident (s : String) (line : Nat) : Token :=
  { typ := TokenType.identifier, lexeme := s, literal := Literal.null,
    line := line }

/-- A non-identifier token. -/
def tok (t : TokenType) (lex : String) (line : Nat) : Token :=
  { typ := t, lexeme := lex, literal := Literal.null, line := line }

/-- The AST of `{ var a = 5; var a = 6; print a; }` (one line): a block
redeclaring `a` in the same non-global scope — a resolver error. -/
def progRedeclare : List Stmt :=
  [Stmt.block
    [Stmt.var (ident "a" 1) (Expr.literal (Literal.number (F64.num 5 1))),
     Stmt.var (ident "a" 1) (Expr.literal (Literal.number (F64.num 6 1))),
     Stmt.print (Expr.Variable (ident "a" 1))]]

/-- The AST of
`fun make(n){ fun inc(){ n = n + 1; return n; } return inc; }
var c = make(10); print c(); print c();` (one line). -/
def progCounter : List Stmt :=
  [Stmt.function (ident "make" 1) [ident "n" 1]
     [Stmt.function (ident "inc" 1) []
        [Stmt.expression (Expr.assign (ident "n" 1)
           (Expr.binary (Expr.Variable (ident "n" 1))
             (tok TokenType.plus "+" 1)
             (Expr.literal (Literal.number (F64.num 1 1))))),
         Stmt.ret (tok TokenType.returnKw "return" 1)
           (Expr.Variable (ident "n" 1))],
      Stmt.ret (tok TokenType.returnKw "return" 1)
        (Expr.Variable (ident "inc" 1))],
   Stmt.var (ident "c" 1)
     (Expr.call (Expr.Variable (ident "make" 1))
       (tok TokenType.rightParen ")" 1)
       [Expr.literal (Literal.number (F64.num 10 1))]),
   Stmt.print (Expr.call (Expr.Variable (ident "c" 1))
     (tok TokenType.rightParen ")" 1) []),
   Stmt.print (Expr.call (Expr.Variable (ident "c" 1))
     (tok TokenType.rightParen ")" 1) [])]

end Jlox

/-! ## jlox: value equality as observed by `PartialEq`
(`#[derive(PartialEq)]` on `Value` in `src/jlox/src/interpreter/value.rs`,
`impl PartialEq for Builtin` in `src/jlox/src/interpreter/builtin.rs`,
and the derived `PartialEq` on `Function` and `Environment`)

Rust's `==` on `Value` dereferences every `Rc<RefCell<Value>>` it meets
(`Rc`/`RefCell` compare their contents), so what it observes is a tree:
a function's captured `Environment` is a stack of frames, each frame a
finite map from names to observed values.  `Obs.Value` is that tree;
`Obs.valueEq` is the comparison the derived and hand-written
`PartialEq` impls perform on it: payload equality for the atomic kinds
(numbers with IEEE `==`), componentwise for functions (`Vec`s
elementwise, `HashMap`s by size plus per-key lookup), and **constant
false** for builtins (`impl PartialEq for Builtin { fn eq(..) -> bool
{ false } }`). -/

namespace Jlox

namespace Obs

/-- jlox `Value` as observed by `PartialEq` (cells dereferenced to
their contents).  A frame of a captured closure is a key-value list
with distinct keys (the image of a `HashMap`). -/
inductive Value where
  | nil
  | boolean (b : Bool)
  | number (x : F64)
  | string (s : String)
  | function (name : String) (params : List Token) (body : List Stmt)
      (closure : List (List (String × Value)))
  | builtin (params : List Value)

/-- `HashMap::get` on an observed frame (first match). -/
def frameLookup : List (String × Value) → String → Option Value
  | [], _ => none
  | (k', v') :: rest, k => if k' = k then some v' else frameLookup rest k

mutual

/-- The `PartialEq` comparison on observed jlox values (see the section
comment). -/
def valueEq : Value → Value → Bool
  | Value.nil, Value.nil => true
  | Value.boolean a, Value.boolean b => a == b
  | Value.number a, Value.number b => F64.beq a b
  | Value.string a, Value.string b => a == b
  | Value.function n1 p1 b1 c1, Value.function n2 p2 b2 c2 =>
    n1 == n2 && p1 == p2 && stmtsBEq b1 b2 && envEq c1 c2
  | Value.builtin _, Value.builtin _ => false
  | _, _ => false
termination_by v1 _ => 2 * sizeOf v1
decreasing_by all_goals (simp; try omega)

/-- `PartialEq` on `Environment` (a `Vec` of frames: same length,
elementwise). -/
def envEq : List (List (String × Value)) → List (List (String × Value)) → Bool
  | [], [] => true
  | f1 :: r1, f2 :: r2 => frameEq f1 f2 && envEq r1 r2
  | _, _ => false
termination_by l1 _ => 2 * sizeOf l1 + 1
decreasing_by all_goals (simp; try omega)

/-- `PartialEq` on a `HashMap` frame: same size, and every entry of the
left map is present with an equal value in the right one. -/
def frameEq (a b : List (String × Value)) : Bool :=
  a.length == b.length && entriesIn a b
termination_by 2 * sizeOf a + 2
decreasing_by all_goals (simp; try omega)

/-- The per-entry check of `HashMap` equality. -/
def entriesIn : List (String × Value) → List (String × Value) → Bool
  | [], _ => true
  | (k, v) :: rest, b =>
    (match frameLookup b k with
     | some w => valueEq v w
     | none => false) && entriesIn rest b
termination_by a _ => 2 * sizeOf a + 1
decreasing_by all_goals (simp; try omega)

end

/-- Distinctness of a frame's keys (every `HashMap` image has it). -/
def keysNodup : List (String × Value) → Bool
  | [] => true
  | (k, _) :: rest => !(rest.any (fun p => p.1 == k)) && keysNodup rest

mutual

/-- A value self-comparison can see only reflexivity-preserving parts:
`selfEqOk` is false exactly when the value is, or contains (through a
captured closure), a NaN number or a builtin — or, an artifact of the
list representation, a frame with duplicate keys, which no `HashMap`
produces. -/
def selfEqOk : Value → Bool
  | Value.nil => true
  | Value.boolean _ => true
  | Value.number F64.nan => false
  | Value.number _ => true
  | Value.string _ => true
  | Value.function _ _ _ c => envOk c
  | Value.builtin _ => false
termination_by v => 2 * sizeOf v
decreasing_by all_goals (simp; try omega)

/-- `selfEqOk` over a closure's frames. -/
def envOk : List (List (String × Value)) → Bool
  | [] => true
  | f :: r => keysNodup f && valuesOk f && envOk r
termination_by l => 2 * sizeOf l + 1
decreasing_by all_goals (simp; try omega)

/-- `selfEqOk` over a frame's values. -/
def valuesOk : List (String × Value) → Bool
  | [] => true
  | (_, v) :: rest => selfEqOk v && valuesOk rest
termination_by f => 2 * sizeOf f + 1
decreasing_by all_goals (simp; try omega)

end

end Obs

end Jlox

/-! ## Spec-side reference definitions and concrete failing inputs -/

namespace Spec

/-- Follows the spec's words (§6 Diagnostics): a static error is the
line `[line N] Error<where>: <message>`. -/
def staticError (line : Nat) (wher : String) (message : String) : String :=
  "[line " ++ toString line ++ "] Error" ++ wher ++ ": " ++ message

/-- Follows the spec's words (§4.6, §8): a VM runtime type error prints
a line of the form `[line N] in script`. -/
def vmRuntimeErrorLine (line : Nat) : String :=
  "[line " ++ toString line ++ "] in script"

end Spec

namespace Clox

/-- The chunk `[Nil, Negate]` (both on line 1): `Negate` applied to the
non-number `nil` — the VM's runtime type error path. -/
def negateNilChunk : Chunk :=
  { code := [OpCode.nilOp.toByte, OpCode.negate.toByte],
    constants := [], lines := [1, 1] }

/-- The chunk `[Nil, Nil, Add]` (line 1): a numeric binary op applied
to non-numbers — the `binary_op!` error path. -/
def addNilChunk : Chunk :=
  { code := [OpCode.nilOp.toByte, OpCode.nilOp.toByte, OpCode.add.toByte],
    constants := [], lines := [1, 1, 1] }

/-- A chunk of 256 pushes followed by `Return`: exactly fills the
evaluation stack. -/
def push256Chunk : Chunk :=
  { code := List.replicate 256 OpCode.nilOp.toByte ++ [OpCode.ret.toByte],
    constants := [], lines := List.replicate 257 1 }

/-- A chunk of 257 pushes: one more than the stack capacity. -/
def push257Chunk : Chunk :=
  { code := List.replicate 257 OpCode.nilOp.toByte,
    constants := [], lines := List.replicate 257 1 }

/-- The clox token `')'` on line 1 (offsets as scanned from `")"`). -/
def rightParenToken : Token :=
  { typ := TokenType.rightParen, start := 0, length := 1, line := 1 }

end Clox

/-- A builtin-free, NaN-free function value with a two-frame captured
closure (used to instantiate the amended reflexivity statement). -/
def Jlox.Obs.fnSample : Jlox.Obs.Value :=
  Jlox.Obs.Value.function "f" [Jlox.ident "x" 1]
    [Jlox.Stmt.print (Jlox.Expr.Variable (Jlox.ident "x" 1))]
    [[("x", Jlox.Obs.Value.string "s")],
     [("y", Jlox.Obs.Value.number (F64.num 1 1)),
      ("z", Jlox.Obs.Value.boolean true)]]

/-! ## Helper lemmas -/

set_option maxRecDepth 100000
set_option maxHeartbeats 1000000

namespace Jlox

/-- Reflexivity of the structural `Expr`/`Expr`-list equality, graded
by size. -/
theorem exprBEq_refl_aux (n : Nat) :
    (∀ e : Expr, sizeOf e ≤ n → exprBEq e e = true) ∧
    (∀ es : List Expr, sizeOf es ≤ n → exprsBEq es es = true) := by
  induction n with
  | zero =>
    constructor
    · intro e he; cases e <;> simp at he
    · intro es he
      cases es with
      | nil => simp [exprsBEq]
      | cons e rest => simp at he
  | succ n ih =>
    constructor
    · intro e he
      cases e with
      | assign nm v =>
        have hv : sizeOf v ≤ n := by simp at he; omega
        simp [exprBEq, ih.1 v hv]
      | binary l o r =>
        have hl : sizeOf l ≤ n := by simp at he; omega
        have hr : sizeOf r ≤ n := by simp at he; omega
        simp [exprBEq, ih.1 l hl, ih.1 r hr]
      | call c p args =>
        have hc : sizeOf c ≤ n := by simp at he; omega
        have ha : sizeOf args ≤ n := by simp at he; omega
        simp [exprBEq, ih.1 c hc, ih.2 args ha]
      | grouping e =>
        have hh : sizeOf e ≤ n := by simp at he; omega
        simp [exprBEq, ih.1 e hh]
      | literal l => simp [exprBEq]
      | logical l o r =>
        have hl : sizeOf l ≤ n := by simp at he; omega
        have hr : sizeOf r ≤ n := by simp at he; omega
        simp [exprBEq, ih.1 l hl, ih.1 r hr]
      | null => simp [exprBEq]
      | unary o r =>
        have hr : sizeOf r ≤ n := by simp at he; omega
        simp [exprBEq, ih.1 r hr]
      | Variable nm => simp [exprBEq]
    · intro es he
      cases es with
      | nil => simp [exprsBEq]
      | cons e rest =>
        have h1 : sizeOf e ≤ n := by simp at he; omega
        have h2 : sizeOf rest ≤ n := by simp at he; omega
        simp [exprsBEq, ih.1 e h1, ih.2 rest h2]

/-- Reflexivity of the structural `Expr` equality. -/
theorem exprBEq_refl (e : Expr) : exprBEq e e = true :=
  (exprBEq_refl_aux (sizeOf e)).1 e (Nat.le_refl _)

/-- Reflexivity of the structural `Stmt`/`Stmt`-list equality, graded
by size. -/
theorem stmtBEq_refl_aux (n : Nat) :
    (∀ s : Stmt, sizeOf s ≤ n → stmtBEq s s = true) ∧
    (∀ ss : List Stmt, sizeOf ss ≤ n → stmtsBEq ss ss = true) := by
  induction n with
  | zero =>
    constructor
    · intro s hs; cases s <;> simp at hs
    · intro ss hs
      cases ss with
      | nil => simp [stmtsBEq]
      | cons s rest => simp at hs
  | succ n ih =>
    constructor
    · intro s hs
      cases s with
      | block ss =>
        have h1 : sizeOf ss ≤ n := by simp at hs; omega
        simp [stmtBEq, ih.2 ss h1]
      | expression e => simp [stmtBEq, exprBEq_refl]
      | function nm ps body =>
        have h1 : sizeOf body ≤ n := by simp at hs; omega
        simp [stmtBEq, ih.2 body h1]
      | ifStmt c t e =>
        have ht : sizeOf t ≤ n := by simp at hs; omega
        have he : sizeOf e ≤ n := by simp at hs; omega
        simp [stmtBEq, exprBEq_refl, ih.1 t ht, ih.1 e he]
      | null => simp [stmtBEq]
      | print e => simp [stmtBEq, exprBEq_refl]
      | ret k v => simp [stmtBEq, exprBEq_refl]
      | var nm init => simp [stmtBEq, exprBEq_refl]
      | whileStmt c b =>
        have hb : sizeOf b ≤ n := by simp at hs; omega
        simp [stmtBEq, exprBEq_refl, ih.1 b hb]
    · intro ss hs
      cases ss with
      | nil => simp [stmtsBEq]
      | cons s rest =>
        have h1 : sizeOf s ≤ n := by simp at hs; omega
        have h2 : sizeOf rest ≤ n := by simp at hs; omega
        simp [stmtsBEq, ih.1 s h1, ih.2 rest h2]

/-- Reflexivity of the structural `Stmt`-list equality. -/
theorem stmtsBEq_refl (ss : List Stmt) : stmtsBEq ss ss = true :=
  (stmtBEq_refl_aux (sizeOf ss)).2 ss (Nat.le_refl _)

end Jlox

namespace Jlox.Obs

/-- In a frame with distinct keys, every entry is found by lookup. -/
theorem nodup_lookup (f : List (String × Value)) (hnd : keysNodup f = true) :
    ∀ k v, (k, v) ∈ f → frameLookup f k = some v := by
  induction f with
  | nil => intro k v hm; cases hm
  | cons kv rest ih =>
    obtain ⟨k0, v0⟩ := kv
    intro k v hm
    simp [keysNodup] at hnd
    cases hm with
    | head => simp [frameLookup]
    | tail _ hm' =>
      have hk : k0 ≠ k := by
        intro h
        exact absurd (hnd.1 k v hm') (by simp [h])
      simp [frameLookup, hk, ih hnd.2 k v hm']

/-- The per-entry half of `HashMap` self-equality: entries found intact
with self-equal values pass `entriesIn`. -/
theorem entriesIn_self (whole : List (String × Value))
    (hl : ∀ k v, (k, v) ∈ whole → frameLookup whole k = some v) :
    ∀ f : List (String × Value),
      (∀ kv, kv ∈ f → kv ∈ whole) →
      (∀ kv, kv ∈ f → valueEq kv.2 kv.2 = true) →
      entriesIn f whole = true := by
  intro f
  induction f with
  | nil => intro _ _; simp [entriesIn]
  | cons kv rest ih =>
    obtain ⟨k, v⟩ := kv
    intro hsub hrefl
    have hlook : frameLookup whole k = some v :=
      hl k v (hsub (k, v) (List.mem_cons_self _ _))
    have hv : valueEq v v = true := hrefl (k, v) (List.mem_cons_self _ _)
    simp [entriesIn, hlook, hv]
    exact ih (fun kv hm => hsub kv (List.mem_cons_of_mem _ hm))
      (fun kv hm => hrefl kv (List.mem_cons_of_mem _ hm))

/-- Reflexivity of the `PartialEq` comparison for every value passing
`selfEqOk` (no NaN, no builtin, `HashMap`-shaped frames), graded by
size. -/
theorem valueEq_refl_aux (n : Nat) :
    (∀ v : Value, sizeOf v ≤ n → selfEqOk v = true → valueEq v v = true) ∧
    (∀ l : List (List (String × Value)), sizeOf l ≤ n → envOk l = true →
      envEq l l = true) ∧
    (∀ f : List (String × Value), sizeOf f ≤ n →
      keysNodup f = true → valuesOk f = true → frameEq f f = true) := by
  induction n with
  | zero =>
    refine ⟨?_, ?_, ?_⟩
    · intro v hv; cases v <;> simp at hv
    · intro l hlen
      cases l with
      | nil => intro _; simp [envEq]
      | cons f r => simp at hlen
    · intro f hlen
      cases f with
      | nil => intro _ _; simp [frameEq, entriesIn]
      | cons kv r => simp at hlen
  | succ n ih =>
    refine ⟨?_, ?_, ?_⟩
    · intro v hsz hok
      cases v with
      | nil => simp [valueEq]
      | boolean b => simp [valueEq]
      | number x =>
        cases x with
        | num a d => simp [valueEq, F64.beq]
        | nan => simp [selfEqOk] at hok
      | string s => simp [valueEq]
      | function nm ps body c =>
        simp [selfEqOk] at hok
        have hc : sizeOf c ≤ n := by simp at hsz; omega
        simp [valueEq, stmtsBEq_refl, ih.2.1 c hc hok]
      | builtin ps => simp [selfEqOk] at hok
    · intro l hsz hok
      cases l with
      | nil => simp [envEq]
      | cons f r =>
        simp [envOk] at hok
        have hf : sizeOf f ≤ n := by simp at hsz; omega
        have hr : sizeOf r ≤ n := by simp at hsz; omega
        simp [envEq, ih.2.2 f hf hok.1.1 hok.1.2, ih.2.1 r hr hok.2]
    · intro f hsz hnd hvo
      have hvals : ∀ kv, kv ∈ f → valueEq kv.2 kv.2 = true := by
        intro kv hm
        have hsz' : sizeOf kv.2 ≤ n := by
          have := List.sizeOf_lt_of_mem hm
          obtain ⟨a, b⟩ := kv
          simp at this ⊢
          omega
        have hok' : selfEqOk kv.2 = true := by
          clear hsz' hsz hnd
          induction f with
          | nil => cases hm
          | cons kv0 rest ih0 =>
            obtain ⟨k0, v0⟩ := kv0
            simp [valuesOk] at hvo
            cases hm with
            | head => exact hvo.1
            | tail _ hm' => exact ih0 hvo.2 hm'
        exact ih.1 kv.2 hsz' hok'
      simp [frameEq]
      exact entriesIn_self f (nodup_lookup f hnd) f (fun _ h => h) hvals

end Jlox.Obs

/-! ### Termination of the jlox scanner

Every loop of the jlox scanner advances `current`, which never
passes the end of the source, so `scan_tokens` with fuel
`source.length + 1` completes on every input and ends with the
unconditionally appended `Eof` token. -/

namespace Jlox.Scanner

theorem comment_loop_some (fuel : Nat) : ∀ (s : Scanner),
    s.current ≤ s.source.length →
    s.source.length - s.current < fuel →
    ∃ s', comment_loop fuel s = some s' ∧ s'.source = s.source ∧
      s.current ≤ s'.current ∧ s'.current ≤ s'.source.length ∧
      s'.start = s.start := by
  induction fuel with
  | zero => intro s h1 h2; omega
  | succ fuel ih =>
    intro s h1 h2
    by_cases hc : (s.peek ≠ '\n' && !s.at_end) = true
    · have hend : s.current < s.source.length := by
        simp [at_end] at hc
        omega
      have hadv : s.source.get? s.current = some (s.source.get ⟨s.current, hend⟩) :=
        List.get?_eq_get hend
      obtain ⟨s', hrun, hsrc, hcur, hlen, hstart⟩ :=
        ih { s with current := s.current + 1 } (by simp; omega) (by simp; omega)
      refine ⟨s', ?_, by simp [hsrc], by simp at hcur; omega,
        hlen, by simp [hstart]⟩
      simp only [comment_loop, hc, if_pos, advance, hadv]
      exact hrun
    · refine ⟨s, ?_, rfl, Nat.le_refl _, h1, rfl⟩
      simp only [comment_loop]
      rw [if_neg hc]

theorem identifier_loop_some (fuel : Nat) : ∀ (s : Scanner),
    s.current ≤ s.source.length →
    s.source.length - s.current < fuel →
    ∃ s', identifier_loop fuel s = some s' ∧ s'.source = s.source ∧
      s.current ≤ s'.current ∧ s'.current ≤ s'.source.length ∧
      s'.start = s.start := by
  induction fuel with
  | zero => intro s h1 h2; omega
  | succ fuel ih =>
    intro s h1 h2
    by_cases hc : is_alphanumeric s.peek = true
    · have hend : s.current < s.source.length := by
        rcases Nat.lt_or_ge s.current s.source.length with h | h
        · exact h
        · exfalso
          have : s.peek = Char.ofNat 0 := by
            simp [peek, at_end]
            omega
          rw [this] at hc
          simp [is_alphanumeric, is_alpha, Char.isDigit, Char.isLower,
            Char.isUpper, Char.ofNat] at hc
      have hadv : s.source.get? s.current = some (s.source.get ⟨s.current, hend⟩) :=
        List.get?_eq_get hend
      obtain ⟨s', hrun, hsrc, hcur, hlen, hstart⟩ :=
        ih { s with current := s.current + 1 } (by simp; omega) (by simp; omega)
      refine ⟨s', ?_, by simp [hsrc], by simp at hcur; omega,
        hlen, by simp [hstart]⟩
      simp only [identifier_loop, hc, if_pos, advance, hadv]
      exact hrun
    · refine ⟨s, ?_, rfl, Nat.le_refl _, h1, rfl⟩
      simp only [identifier_loop]
      rw [if_neg hc]

theorem digits_loop_some (fuel : Nat) : ∀ (s : Scanner),
    s.current ≤ s.source.length →
    s.source.length - s.current < fuel →
    ∃ s', digits_loop fuel s = some s' ∧ s'.source = s.source ∧
      s.current ≤ s'.current ∧ s'.current ≤ s'.source.length ∧
      s'.start = s.start := by
  induction fuel with
  | zero => intro s h1 h2; omega
  | succ fuel ih =>
    intro s h1 h2
    by_cases hc : s.peek.isDigit = true
    · have hend : s.current < s.source.length := by
        rcases Nat.lt_or_ge s.current s.source.length with h | h
        · exact h
        · exfalso
          have : s.peek = Char.ofNat 0 := by
            simp [peek, at_end]
            omega
          rw [this] at hc
          simp [Char.isDigit, Char.ofNat] at hc
      have hadv : s.source.get? s.current = some (s.source.get ⟨s.current, hend⟩) :=
        List.get?_eq_get hend
      obtain ⟨s', hrun, hsrc, hcur, hlen, hstart⟩ :=
        ih { s with current := s.current + 1 } (by simp; omega) (by simp; omega)
      refine ⟨s', ?_, by simp [hsrc], by simp at hcur; omega,
        hlen, by simp [hstart]⟩
      simp only [digits_loop, hc, if_pos, advance, hadv]
      exact hrun
    · refine ⟨s, ?_, rfl, Nat.le_refl _, h1, rfl⟩
      simp only [digits_loop]
      rw [if_neg hc]

theorem string_loop_some (fuel : Nat) : ∀ (s : Scanner),
    s.current ≤ s.source.length →
    s.source.length - s.current < fuel →
    ∃ s', string_loop fuel s = some s' ∧ s'.source = s.source ∧
      s.current ≤ s'.current ∧ s'.current ≤ s'.source.length ∧
      s'.start = s.start := by
  induction fuel with
  | zero => intro s h1 h2; omega
  | succ fuel ih =>
    intro s h1 h2
    by_cases hc : (s.peek ≠ '"' && !s.at_end) = true
    · have hend : s.current < s.source.length := by
        simp [at_end] at hc
        omega
      by_cases hn : s.peek = '\n'
      · have hadv : s.source.get? s.current =
            some (s.source.get ⟨s.current, hend⟩) := List.get?_eq_get hend
        obtain ⟨s', hrun, hsrc, hcur, hlen, hstart⟩ :=
          ih { s with line := s.line + 1, current := s.current + 1 }
            (by simp; omega) (by simp; omega)
        refine ⟨s', ?_, by simp [hsrc], by simp at hcur; omega,
          hlen, by simp [hstart]⟩
        simp only [string_loop]
        rw [if_pos hc, if_pos hn]
        simp only [advance, hadv]
        exact hrun
      · have hadv : s.source.get? s.current =
            some (s.source.get ⟨s.current, hend⟩) := List.get?_eq_get hend
        obtain ⟨s', hrun, hsrc, hcur, hlen, hstart⟩ :=
          ih { s with current := s.current + 1 } (by simp; omega)
            (by simp; omega)
        refine ⟨s', ?_, by simp [hsrc], by simp at hcur; omega,
          hlen, by simp [hstart]⟩
        simp only [string_loop]
        rw [if_pos hc, if_neg hn]
        simp only [advance, hadv]
        exact hrun
    · refine ⟨s, ?_, rfl, Nat.le_refl _, h1, rfl⟩
      simp only [string_loop]
      rw [if_neg hc]

theorem matchesChar_spec (s : Scanner) (c : Char)
    (h1 : s.current ≤ s.source.length) :
    (s.matchesChar c).2.source = s.source ∧
    s.current ≤ (s.matchesChar c).2.current ∧
    (s.matchesChar c).2.current ≤ s.source.length ∧
    (s.matchesChar c).2.start = s.start ∧
    (s.matchesChar c).2.tokens = s.tokens := by
  simp only [matchesChar]
  split_ifs with h2 h3 <;> simp_all [at_end] <;> omega

theorem add_token_spec (s : Scanner) (typ : TokenType) (l : Literal) :
    (s.add_token typ l).source = s.source ∧
    (s.add_token typ l).current = s.current ∧
    (s.add_token typ l).start = s.start := by
  simp [add_token]

theorem identifier_some (s : Scanner) (h1 : s.current ≤ s.source.length) :
    ∃ s', identifier s = some s' ∧ s'.source = s.source ∧
      s.current ≤ s'.current ∧ s'.current ≤ s'.source.length := by
  obtain ⟨s1, hrun, hsrc, hcur, hlen, _⟩ :=
    identifier_loop_some (s.source.length + 1) s h1 (by omega)
  simp only [identifier, hrun]
  exact ⟨_, rfl, by simp [add_token, hsrc], by simp [add_token]; omega,
    by simp [add_token]; omega⟩

theorem number_some (s : Scanner) (h1 : s.current ≤ s.source.length) :
    ∃ s', number s = some s' ∧ s'.source = s.source ∧
      s.current ≤ s'.current ∧ s'.current ≤ s'.source.length := by
  obtain ⟨s1, hrun, hsrc, hcur, hlen, _⟩ :=
    digits_loop_some (s.source.length + 1) s h1 (by omega)
  by_cases hdot : (s1.peek = '.' && s1.peek_next.isDigit) = true
  · have hend : s1.current < s1.source.length := by
      simp at hdot
      rcases Nat.lt_or_ge s1.current s1.source.length with h | h
      · exact h
      · exfalso
        have : s1.peek = Char.ofNat 0 := by
          simp [peek, at_end]
          omega
        rw [this] at hdot
        have := hdot.1
        simp [Char.ofNat] at this
    have hadv : s1.source.get? s1.current =
        some (s1.source.get ⟨s1.current, hend⟩) := List.get?_eq_get hend
    obtain ⟨s2, hrun2, hsrc2, hcur2, hlen2, _⟩ :=
      digits_loop_some (s1.source.length + 1)
        { s1 with current := s1.current + 1 } (by simp; omega)
        (by simp; omega)
    simp only [number, hrun]
    rw [if_pos hdot]
    simp only [advance, hadv, hrun2]
    refine ⟨_, rfl, by simp [add_token, hsrc2, hsrc], ?_, ?_⟩
    · simp [add_token]
      simp at hcur2
      omega
    · simp [add_token]
      omega
  · simp only [number, hrun]
    rw [if_neg hdot]
    exact ⟨_, rfl, by simp [add_token, hsrc], by simp [add_token]; omega,
      by simp [add_token]; omega⟩

theorem stringTok_some (s : Scanner) (h1 : s.current ≤ s.source.length) :
    ∃ s', stringTok s = some s' ∧ s'.source = s.source ∧
      s.current ≤ s'.current ∧ s'.current ≤ s'.source.length := by
  obtain ⟨s1, hrun, hsrc, hcur, hlen, _⟩ :=
    string_loop_some (s.source.length + 1) s h1 (by omega)
  by_cases hend : s1.at_end = true
  · simp only [stringTok, hrun]
    rw [if_pos hend]
    exact ⟨_, rfl, by simp [hsrc], by simpa using hcur, by simpa using hlen⟩
  · have hlt : s1.current < s1.source.length := by
      simp [at_end] at hend
      omega
    have hadv : s1.source.get? s1.current =
        some (s1.source.get ⟨s1.current, hlt⟩) := List.get?_eq_get hlt
    simp only [stringTok, hrun]
    rw [if_neg hend]
    simp only [advance, hadv]
    exact ⟨_, rfl, by simp [add_token, hsrc], by simp [add_token]; omega,
      by simp [add_token]; omega⟩

theorem operator_branch (s1 : Scanner) (ch : Char) (tThen tElse : TokenType)
    (h : s1.current ≤ s1.source.length) :
    ∃ s', (match s1.matchesChar ch with
           | (m, s2) =>
             some (s2.add_token (if m then tThen else tElse) Literal.null)) =
        some s' ∧
      s'.source = s1.source ∧ s1.current ≤ s'.current ∧
      s'.current ≤ s'.source.length := by
  rcases hm : s1.matchesChar ch with ⟨m, s2⟩
  have hspec := matchesChar_spec s1 ch h
  rw [hm] at hspec
  simp only at hspec
  simp only []
  exact ⟨_, rfl, by simp [add_token, hspec.1],
    by simp [add_token]; exact hspec.2.1,
    by simp [add_token]; rw [hspec.1]; exact hspec.2.2.1⟩

theorem slash_branch (s1 : Scanner) (h : s1.current ≤ s1.source.length) :
    ∃ s', (match s1.matchesChar '/' with
           | (m, s2) =>
             if m then comment_loop (s2.source.length + 1) s2
             else some (s2.add_token TokenType.slash Literal.null)) =
        some s' ∧
      s'.source = s1.source ∧ s1.current ≤ s'.current ∧
      s'.current ≤ s'.source.length := by
  rcases hm : s1.matchesChar '/' with ⟨m, s2⟩
  have hspec := matchesChar_spec s1 '/' h
  rw [hm] at hspec
  simp only at hspec
  simp only []
  cases m with
  | false =>
    rw [if_neg (by simp)]
    exact ⟨_, rfl, by simp [add_token, hspec.1],
      by simp [add_token]; exact hspec.2.1,
      by simp [add_token]; rw [hspec.1]; exact hspec.2.2.1⟩
  | true =>
    rw [if_pos rfl]
    obtain ⟨s', hrun, hsrc, hcur, hlen, _⟩ :=
      comment_loop_some (s2.source.length + 1) s2
        (by rw [hspec.1]; exact hspec.2.2.1) (by omega)
    exact ⟨s', hrun, by rw [hsrc, hspec.1], le_trans hspec.2.1 hcur, hlen⟩

theorem scan_token_some (s : Scanner) (hlt : s.current < s.source.length) :
    ∃ s', scan_token s = some s' ∧ s'.source = s.source ∧
      s.current < s'.current ∧ s'.current ≤ s'.source.length := by
  have hadv : s.source.get? s.current =
      some (s.source.get ⟨s.current, hlt⟩) := List.get?_eq_get hlt
  simp only [scan_token, advance, hadv]
  set c := s.source.get ⟨s.current, hlt⟩ with hc
  by_cases h0 : c = '('
  · rw [if_pos h0]
    exact ⟨_, rfl, by first | (simp [add_token]; omega) | simp [add_token] | omega, by first | (simp [add_token]; omega) | simp [add_token] | omega, by first | (simp [add_token]; omega) | simp [add_token] | omega⟩
  rw [if_neg h0]
  by_cases h1 : c = ')'
  · rw [if_pos h1]
    exact ⟨_, rfl, by first | (simp [add_token]; omega) | simp [add_token] | omega, by first | (simp [add_token]; omega) | simp [add_token] | omega, by first | (simp [add_token]; omega) | simp [add_token] | omega⟩
  rw [if_neg h1]
  by_cases h2 : c = '{'
  · rw [if_pos h2]
    exact ⟨_, rfl, by first | (simp [add_token]; omega) | simp [add_token] | omega, by first | (simp [add_token]; omega) | simp [add_token] | omega, by first | (simp [add_token]; omega) | simp [add_token] | omega⟩
  rw [if_neg h2]
  by_cases h3 : c = '}'
  · rw [if_pos h3]
    exact ⟨_, rfl, by first | (simp [add_token]; omega) | simp [add_token] | omega, by first | (simp [add_token]; omega) | simp [add_token] | omega, by first | (simp [add_token]; omega) | simp [add_token] | omega⟩
  rw [if_neg h3]
  by_cases h4 : c = ','
  · rw [if_pos h4]
    exact ⟨_, rfl, by first | (simp [add_token]; omega) | simp [add_token] | omega, by first | (simp [add_token]; omega) | simp [add_token] | omega, by first | (simp [add_token]; omega) | simp [add_token] | omega⟩
  rw [if_neg h4]
  by_cases h5 : c = '.'
  · rw [if_pos h5]
    exact ⟨_, rfl, by first | (simp [add_token]; omega) | simp [add_token] | omega, by first | (simp [add_token]; omega) | simp [add_token] | omega, by first | (simp [add_token]; omega) | simp [add_token] | omega⟩
  rw [if_neg h5]
  by_cases h6 : c = '-'
  · rw [if_pos h6]
    exact ⟨_, rfl, by first | (simp [add_token]; omega) | simp [add_token] | omega, by first | (simp [add_token]; omega) | simp [add_token] | omega, by first | (simp [add_token]; omega) | simp [add_token] | omega⟩
  rw [if_neg h6]
  by_cases h7 : c = '+'
  · rw [if_pos h7]
    exact ⟨_, rfl, by first | (simp [add_token]; omega) | simp [add_token] | omega, by first | (simp [add_token]; omega) | simp [add_token] | omega, by first | (simp [add_token]; omega) | simp [add_token] | omega⟩
  rw [if_neg h7]
  by_cases h8 : c = ';'
  · rw [if_pos h8]
    exact ⟨_, rfl, by first | (simp [add_token]; omega) | simp [add_token] | omega, by first | (simp [add_token]; omega) | simp [add_token] | omega, by first | (simp [add_token]; omega) | simp [add_token] | omega⟩
  rw [if_neg h8]
  by_cases h9 : c = '*'
  · rw [if_pos h9]
    exact ⟨_, rfl, by first | (simp [add_token]; omega) | simp [add_token] | omega, by first | (simp [add_token]; omega) | simp [add_token] | omega, by first | (simp [add_token]; omega) | simp [add_token] | omega⟩
  rw [if_neg h9]
  by_cases h10 : c = '!'
  · rw [if_pos h10]
    obtain ⟨s', e1, e2, e3, e4⟩ :=
      operator_branch { s with current := s.current + 1 } '='
        TokenType.bangEqual TokenType.bang (by simp; omega)
    exact ⟨s', e1, by simpa using e2, by simp at e3; omega, e4⟩
  rw [if_neg h10]
  by_cases h11 : c = '='
  · rw [if_pos h11]
    obtain ⟨s', e1, e2, e3, e4⟩ :=
      operator_branch { s with current := s.current + 1 } '='
        TokenType.equalEqual TokenType.equal (by simp; omega)
    exact ⟨s', e1, by simpa using e2, by simp at e3; omega, e4⟩
  rw [if_neg h11]
  by_cases h12 : c = '<'
  · rw [if_pos h12]
    obtain ⟨s', e1, e2, e3, e4⟩ :=
      operator_branch { s with current := s.current + 1 } '='
        TokenType.lessEqual TokenType.less (by simp; omega)
    exact ⟨s', e1, by simpa using e2, by simp at e3; omega, e4⟩
  rw [if_neg h12]
  by_cases h13 : c = '>'
  · rw [if_pos h13]
    obtain ⟨s', e1, e2, e3, e4⟩ :=
      operator_branch { s with current := s.current + 1 } '='
        TokenType.greaterEqual TokenType.greater (by simp; omega)
    exact ⟨s', e1, by simpa using e2, by simp at e3; omega, e4⟩
  rw [if_neg h13]
  by_cases h14 : c = '/'
  · rw [if_pos h14]
    obtain ⟨s', e1, e2, e3, e4⟩ :=
      slash_branch { s with current := s.current + 1 } (by simp; omega)
    exact ⟨s', e1, by simpa using e2, by simp at e3; omega, e4⟩
  rw [if_neg h14]
  by_cases h15 : (c = ' ' || c = '\r' || c = '\t') = true
  · rw [if_pos h15]
    exact ⟨_, rfl, by first | (simp [add_token]; omega) | simp [add_token] | omega, by first | (simp [add_token]; omega) | simp [add_token] | omega, by first | (simp [add_token]; omega) | simp [add_token] | omega⟩
  rw [if_neg h15]
  by_cases h16 : c = '\n'
  · rw [if_pos h16]
    exact ⟨_, rfl, by first | (simp [add_token]; omega) | simp [add_token] | omega, by first | (simp [add_token]; omega) | simp [add_token] | omega, by first | (simp [add_token]; omega) | simp [add_token] | omega⟩
  rw [if_neg h16]
  by_cases h17 : c = '"'
  · rw [if_pos h17]
    obtain ⟨s', e1, e2, e3, e4⟩ :=
      stringTok_some { s with current := s.current + 1 } (by simp; omega)
    exact ⟨s', e1, by simpa using e2, by simp at e3; omega, e4⟩
  rw [if_neg h17]
  by_cases h18 : c.isDigit = true
  · rw [if_pos h18]
    obtain ⟨s', e1, e2, e3, e4⟩ :=
      number_some { s with current := s.current + 1 } (by simp; omega)
    exact ⟨s', e1, by simpa using e2, by simp at e3; omega, e4⟩
  rw [if_neg h18]
  by_cases h19 : is_alpha c = true
  · rw [if_pos h19]
    obtain ⟨s', e1, e2, e3, e4⟩ :=
      identifier_some { s with current := s.current + 1 } (by simp; omega)
    exact ⟨s', e1, by simpa using e2, by simp at e3; omega, e4⟩
  rw [if_neg h19]
  exact ⟨_, rfl, by first | (simp [add_token]; omega) | simp [add_token] | omega, by first | (simp [add_token]; omega) | simp [add_token] | omega, by first | (simp [add_token]; omega) | simp [add_token] | omega⟩

theorem scan_loop_some (fuel : Nat) : ∀ (s : Scanner),
    s.current ≤ s.source.length →
    s.source.length - s.current < fuel →
    ∃ s', scan_loop fuel s = some s' := by
  induction fuel with
  | zero => intro s h1 h2; omega
  | succ fuel ih =>
    intro s h1 h2
    by_cases hend : (!s.at_end) = true
    · have hlt : s.current < s.source.length := by
        simp [at_end] at hend
        omega
      obtain ⟨s1, hrun, hsrc, hcur, hlen⟩ :=
        scan_token_some { s with start := s.current } (by simpa using hlt)
      obtain ⟨s', hrun'⟩ := ih s1 hlen (by
        simp at hsrc hcur
        rw [hsrc]
        omega)
      refine ⟨s', ?_⟩
      simp only [scan_loop]
      rw [if_pos hend, hrun]
      exact hrun'
    · refine ⟨s, ?_⟩
      simp only [scan_loop]
      rw [if_neg hend]

theorem scan_tokens_terminates (src : List Char) :
    ∃ (toks : List Token) (s' : Scanner),
      scan_tokens (src.length + 1) (Scanner.new src) = some (toks, s') ∧
      toks.getLast?.map Token.typ = some TokenType.eof := by
  obtain ⟨s1, hrun⟩ :=
    scan_loop_some (src.length + 1) (Scanner.new src) (by simp [Scanner.new])
      (by simp [Scanner.new])
  refine ⟨s1.tokens ++
      [{ typ := TokenType.eof, lexeme := "", literal := Literal.null,
         line := s1.line }],
    { s1 with tokens := s1.tokens ++
      [{ typ := TokenType.eof, lexeme := "", literal := Literal.null,
         line := s1.line }] }, ?_, ?_⟩
  · simp only [scan_tokens, hrun]
  · simp [List.getLast?_concat]

end Jlox.Scanner

/-! ## The claims -/

/-- C1: the claim says the resolver pass runs on the AST before the
evaluator and that resolved Variable/Assign nodes are accessed with
`get_at`/`assign_at`.  The code does neither: `Lox::run` has the
resolver invocation commented out, and the evaluator's
`Expr::Variable`/`Expr::Assign` arms call `Environment::get`/`assign`
unconditionally (the `locals` table is never read).  At the program
`{ var a = 5; var a = 6; print a; }` the pipeline executes and prints
`6`, while the resolver present in the sources reports the static
error `Already a variable with this name in this scope.` — under the
claim the program would be rejected before execution. -/
theorem C1_pipeline_skips_resolver :
    (Jlox.run 100 Jlox.progRedeclare).map (fun r => (r.1.output, r.2)) =
      some (["6"], []) ∧
    (Jlox.resolveProgram 100 Jlox.progRedeclare).map Jlox.Resolver.errors =
      some ["[line 1] Error: Already a variable with this name in this scope."]
    := ⟨by decide, by decide⟩

/-- C2: executing
`fun make(n){ fun inc(){ n = n + 1; return n; } return inc; }
var c = make(10); print c(); print c();` prints `11` then `12` (and no
runtime error): the closure returned by `make` shares the captured
frame holding `n` (environment clones share the `Rc` cells), so the
assignment inside the first call of `c` is visible to the second. -/
theorem C2_closure_counter_prints_11_12 :
    (Jlox.run 100 Jlox.progCounter).map (fun r => (r.1.output, r.2)) =
      some (["11", "12"], []) := by decide

/-- C3: the claim says every static error, in both pipelines, is the
line `[line N] Error<where>: <message>`.  The jlox reporters conform
exactly (first two conjuncts).  The clox `Vm::error_at` does not: at
the token `')'` with message `Expect expression.` it emits
`[line 1] Error at 'Expect expression.'` — the message where the
lexeme belongs and no `: <message>` suffix — which differs from the
claimed `[line 1] Error at ')': Expect expression.` (and for EOF
errors the message is dropped entirely). -/
theorem C3_static_error_format :
    (∀ line wher msg, Jlox.report line wher msg = Spec.staticError line wher msg) ∧
    (∀ tok msg, Jlox.parse_error tok msg =
      Spec.staticError tok.line
        (if tok.typ.is_eof then " at end" else " at '" ++ tok.lexeme ++ "'")
        msg) ∧
    (Clox.error_at false Clox.rightParenToken "Expect expression." =
      some "[line 1] Error at 'Expect expression.'") ∧
    ("[line 1] Error at 'Expect expression.'" ≠
      Spec.staticError 1 " at ')'" "Expect expression.") := by
  refine ⟨fun _ _ _ => rfl, ?_, by decide, by decide⟩
  intro tok msg
  by_cases h : tok.typ.is_eof <;>
    simp [Jlox.parse_error, Jlox.report, Spec.staticError, h]

/-- C4: on a runtime type error — `Negate` of `nil`, or a numeric
binary op (`Add`) on non-numbers — the VM prints the operand message
and an error line, resets the stack to empty, and `run` returns
`RuntimeError` — all as claimed — but the line it prints is
`[line 1 in script` (the format string in `Vm::runtime_error` lacks
the closing bracket), not the claimed `[line 1] in script`. -/
theorem C4_vm_runtime_error_behavior :
    (Clox.Vm.run 10 (Clox.Vm.start Clox.negateNilChunk)).map
        (fun r => (r.1, r.2.stack, r.2.stderrLog)) =
      some (Clox.RunResult.runtimeError, [],
        ["Operand must be a number", "[line 1 in script\n"]) ∧
    (Clox.Vm.run 10 (Clox.Vm.start Clox.addNilChunk)).map
        (fun r => (r.1, r.2.stack, r.2.stderrLog)) =
      some (Clox.RunResult.runtimeError, [],
        ["Operands must be numbers.", "[line 1 in script\n"]) ∧
    ("[line 1 in script\n" ≠ Spec.vmRuntimeErrorLine 1) :=
  ⟨by decide, by decide, by decide⟩

/-- C5: the claim says a chunk's pool holds at most 256 entries and
the 257th constant is a compile error.  `make_constant`/`add_constant`
perform no check: the 256th call still returns the in-range index 255
(`len as u8` wraps to 0, then the wrapping `- 1` gives 255), but the
257th call returns the wrapped index 0 — aliasing constant 0 — while
the pool silently grows to 257 entries.  No
`Too many constants in one chunk.` error exists in the sources. -/
theorem C5_constant_pool_overflow_wraps :
    (Clox.addConstantTimes Clox.Chunk.new Clox.Value.nil 256).2 = 255 ∧
    (Clox.addConstantTimes Clox.Chunk.new Clox.Value.nil 257).2 = 0 ∧
    (Clox.addConstantTimes Clox.Chunk.new Clox.Value.nil 257).1.constants.length
      = 257 :=
  ⟨by decide, by decide, by decide⟩

/-- C6 counterexample: the claim says `v == v` is true for every value
except NaN numbers, builtins included.  It is false at the `clock`
builtin (`Builtin { params: vec![], .. }`): jlox's
`impl PartialEq for Builtin` returns `false` unconditionally, so a
builtin is not equal to itself. -/
theorem C6_builtin_not_self_equal :
    Jlox.Obs.valueEq (Jlox.Obs.Value.builtin []) (Jlox.Obs.Value.builtin [])
      = false := by
  simp [Jlox.Obs.valueEq]

/-- C6 (amended): `v == v` holds for every jlox value containing no
NaN and no builtin (`selfEqOk`); a NaN number is not equal to itself;
a builtin is never equal to any builtin, itself included (so a
function capturing a builtin also fails `v == v`); and `Nil` is
unequal to every non-`Nil` value, in both directions.  On the clox
side `v == v` holds for booleans, nil, and non-NaN numbers, fails for
NaN, and `Nil` is unequal to every non-`Nil` value. -/
theorem C6_value_equality_amended :
    (∀ v : Jlox.Obs.Value, Jlox.Obs.selfEqOk v = true →
      Jlox.Obs.valueEq v v = true) ∧
    (∀ p q : List Jlox.Obs.Value,
      Jlox.Obs.valueEq (Jlox.Obs.Value.builtin p) (Jlox.Obs.Value.builtin q)
        = false) ∧
    (Jlox.Obs.valueEq (Jlox.Obs.Value.number F64.nan)
      (Jlox.Obs.Value.number F64.nan) = false) ∧
    (∀ v : Jlox.Obs.Value, v ≠ Jlox.Obs.Value.nil →
      Jlox.Obs.valueEq Jlox.Obs.Value.nil v = false ∧
      Jlox.Obs.valueEq v Jlox.Obs.Value.nil = false) ∧
    (∀ b, Clox.Value.eq (Clox.Value.bool b) (Clox.Value.bool b) = true) ∧
    (Clox.Value.eq Clox.Value.nil Clox.Value.nil = true) ∧
    (∀ a d, Clox.Value.eq (Clox.Value.number (F64.num a d))
      (Clox.Value.number (F64.num a d)) = true) ∧
    (Clox.Value.eq (Clox.Value.number F64.nan)
      (Clox.Value.number F64.nan) = false) ∧
    (∀ v : Clox.Value, v ≠ Clox.Value.nil →
      Clox.Value.eq Clox.Value.nil v = false ∧
      Clox.Value.eq v Clox.Value.nil = false) := by
  refine ⟨?_, ?_, ?_, ?_, ?_, ?_, ?_, ?_, ?_⟩
  · intro v h
    exact (Jlox.Obs.valueEq_refl_aux (sizeOf v)).1 v (Nat.le_refl _) h
  · intro p q; simp [Jlox.Obs.valueEq]
  · simp [Jlox.Obs.valueEq, F64.beq]
  · intro v hv
    cases v with
    | nil => exact absurd rfl hv
    | boolean b =>
      exact ⟨by simp [Jlox.Obs.valueEq], by simp [Jlox.Obs.valueEq]⟩
    | number x =>
      exact ⟨by simp [Jlox.Obs.valueEq], by simp [Jlox.Obs.valueEq]⟩
    | string s =>
      exact ⟨by simp [Jlox.Obs.valueEq], by simp [Jlox.Obs.valueEq]⟩
    | function n p b c =>
      exact ⟨by simp [Jlox.Obs.valueEq], by simp [Jlox.Obs.valueEq]⟩
    | builtin p =>
      exact ⟨by simp [Jlox.Obs.valueEq], by simp [Jlox.Obs.valueEq]⟩
  · intro b; simp [Clox.Value.eq]
  · simp [Clox.Value.eq]
  · intro a d; simp [Clox.Value.eq, F64.beq]
  · simp [Clox.Value.eq, F64.beq]
  · intro v hv
    cases v with
    | nil => exact absurd rfl hv
    | bool b => exact ⟨by simp [Clox.Value.eq], by simp [Clox.Value.eq]⟩
    | number x => exact ⟨by simp [Clox.Value.eq], by simp [Clox.Value.eq]⟩

/-- C6 witness: the amended statement at concrete inputs — a
builtin-free function value with a two-frame closure is equal to
itself, and nil is unequal to a boolean, in both models. -/
theorem C6_value_equality_amended_witness :
    Jlox.Obs.valueEq Jlox.Obs.fnSample Jlox.Obs.fnSample = true ∧
    Jlox.Obs.valueEq Jlox.Obs.Value.nil (Jlox.Obs.Value.boolean true) = false ∧
    Clox.Value.eq Clox.Value.nil (Clox.Value.bool false) = false :=
  ⟨C6_value_equality_amended.1 Jlox.Obs.fnSample (by
      simp [Jlox.Obs.fnSample, Jlox.Obs.selfEqOk, Jlox.Obs.envOk,
        Jlox.Obs.valuesOk, Jlox.Obs.keysNodup]),
   (C6_value_equality_amended.2.2.2.1 (Jlox.Obs.Value.boolean true)
      (fun h => Jlox.Obs.Value.noConfusion h)).1,
   (C6_value_equality_amended.2.2.2.2.2.2.2.2 (Clox.Value.bool false)
      (by decide)).1⟩

/-- C7: for every input, the jlox scanner terminates and its final
token has kind `Eof` (first conjunct; its `peek_next` is totally
guarded, and on the input `1.` it terminates normally with tokens
Number, Dot, Eof — second conjunct).  The clox scanner, however,
panics on the same input `1.`: its `peek_next` reads
`source[current + 1]` guarded only by `current >= len`, which indexes
out of bounds when `current` sits on the last character — reached from
`number`'s fraction test (third conjunct; the `none` is the panic). -/
theorem C7_scanner_termination_and_eof :
    (∀ src : List Char, ∃ (toks : List Jlox.Token) (s' : Jlox.Scanner),
      Jlox.Scanner.scan_tokens (src.length + 1) (Jlox.Scanner.new src) =
        some (toks, s') ∧
      toks.getLast?.map Jlox.Token.typ = some Jlox.TokenType.eof) ∧
    ((Jlox.Scanner.scan_tokens 10 (Jlox.Scanner.new ['1', '.'])).map
        (fun r => (r.1.map Jlox.Token.typ, r.2.errors)) =
      some ([Jlox.TokenType.number, Jlox.TokenType.dot, Jlox.TokenType.eof],
        [])) ∧
    (Clox.Scanner.scan_token (Clox.Scanner.new ['1', '.']) = none) :=
  ⟨Jlox.Scanner.scan_tokens_terminates, by decide, by decide⟩

/-- C8: starting from `Chunk::new`, after any sequence of
`write_chunk` and `add_constant` operations the `code` and `lines`
vectors have the same length (each written byte is paired with exactly
one line entry; `add_constant` touches neither). -/
theorem C8_chunk_code_lines_same_length (ops : List Clox.ChunkOp) :
    (Clox.ChunkOp.applyAll Clox.Chunk.new ops).code.length =
      (Clox.ChunkOp.applyAll Clox.Chunk.new ops).lines.length := by
  have general : ∀ (ops : List Clox.ChunkOp) (c : Clox.Chunk),
      c.code.length = c.lines.length →
      (Clox.ChunkOp.applyAll c ops).code.length =
        (Clox.ChunkOp.applyAll c ops).lines.length := by
    intro ops
    induction ops with
    | nil => intro c h; exact h
    | cons op rest ih =>
      intro c h
      apply ih
      cases op with
      | write b l => simp [Clox.ChunkOp.apply, Clox.Chunk.write_chunk, h]
      | addConst v => simp [Clox.ChunkOp.apply, Clox.Chunk.add_constant, h]
  exact general ops Clox.Chunk.new rfl

/-- C9: the claim says an execution whose stack depth would exceed 256
is detected and reported as an error.  It is not: `Vm::push` writes
`stack[stack_top]` with no check, so the 257th push indexes outside
the 256-element array — a panic (`none`), not a reported
`RuntimeError` — while the same run truncated at 256 pushes completes
normally (second conjunct). -/
theorem C9_stack_overflow_panics_unreported :
    (Clox.Vm.run 300 (Clox.Vm.start Clox.push257Chunk)).isNone = true ∧
    (Clox.Vm.run 300 (Clox.Vm.start Clox.push256Chunk)).map Prod.fst =
      some Clox.RunResult.ok :=
  ⟨by decide, by decide⟩

/-- C10: environment lookups alias the stored cell.  If `get` (resp.
`get_at`) succeeds with cell `r`, then `assign` (resp. `assign_at`) on
the same environment succeeds, mutates exactly cell `r` in place, and
reading through the previously returned handle `r` yields the new
value — `get` returns a shared cell and `assign` overwrites the cell's
contents in the nearest frame containing the name, never rebinding. -/
theorem C10_env_get_assign_alias :
    (∀ (env : Jlox.Env) (store : Jlox.Store) (x : Jlox.Token)
      (v : Jlox.Value) (r : Nat),
      Jlox.Environment.get env x = Except.ok r → r < store.length →
      Jlox.Environment.assign env store x v = Except.ok (store.set r v, r) ∧
      (store.set r v)[r]? = some v) ∧
    (∀ (env : Jlox.Env) (store : Jlox.Store) (d : Nat) (x : Jlox.Token)
      (v : Jlox.Value) (r : Nat),
      Jlox.Environment.get_at env d x = some (Except.ok r) → r < store.length →
      Jlox.Environment.assign_at env store d x v = some (store.set r v, r) ∧
      (store.set r v)[r]? = some v) := by
  constructor
  · intro env store x v r hget hr
    refine ⟨?_, List.getElem?_set_eq_of_lt v hr⟩
    induction env with
    | nil => simp [Jlox.Environment.get] at hget
    | cons top rest ih =>
      simp [Jlox.Environment.get] at hget
      simp [Jlox.Environment.assign]
      cases htop : Jlox.Frame.get top x.lexeme with
      | some cell =>
        rw [htop] at hget
        simp at hget
        subst hget
        simp [Jlox.Frame.contains_key, htop]
      | none =>
        rw [htop] at hget
        simp [Jlox.Frame.contains_key, htop]
        exact ih hget
  · intro env store d x v r hget hr
    refine ⟨?_, List.getElem?_set_eq_of_lt v hr⟩
    cases hframe : env[d]? with
    | none =>
      simp [Jlox.Environment.get_at, hframe] at hget
    | some frame =>
      cases hcell : Jlox.Frame.get frame x.lexeme with
      | none =>
        simp [Jlox.Environment.get_at, hframe, hcell] at hget
      | some cell =>
        simp [Jlox.Environment.get_at, hframe, hcell] at hget
        subst hget
        simp [Jlox.Environment.assign_at, hframe, hcell]

/-- C10 witness: both halves at a one-frame environment binding `x` to
cell 0 of a one-cell store, assigning `true` over `nil`. -/
theorem C10_env_get_assign_alias_witness :
    Jlox.Environment.assign [[("x", 0)]] [Jlox.Value.nil] (Jlox.ident "x" 1)
        (Jlox.Value.boolean true) =
      Except.ok
        (([Jlox.Value.nil] : Jlox.Store).set 0 (Jlox.Value.boolean true), 0) ∧
    (([Jlox.Value.nil] : Jlox.Store).set 0 (Jlox.Value.boolean true))[0]? =
      some (Jlox.Value.boolean true) ∧
    Jlox.Environment.assign_at [[("x", 0)]] [Jlox.Value.nil] 0
        (Jlox.ident "x" 1) (Jlox.Value.boolean true) =
      some
        (([Jlox.Value.nil] : Jlox.Store).set 0 (Jlox.Value.boolean true), 0) :=
  have h1 := C10_env_get_assign_alias.1 [[("x", 0)]] [Jlox.Value.nil]
    (Jlox.ident "x" 1) (Jlox.Value.boolean true) 0 (by rfl) (by decide)
  have h2 := C10_env_get_assign_alias.2 [[("x", 0)]] [Jlox.Value.nil] 0
    (Jlox.ident "x" 1) (Jlox.Value.boolean true) 0 (by rfl) (by decide)
  ⟨h1.1, h1.2, h2.1⟩
